import Mathlib

/-
  Verification development for the jsdoc-builder transformation pipeline
  (src/index.ts).  The TypeScript source is shallowly embedded: pure
  functions of the source become Lean functions with the same names; the
  external capabilities (the TypeScript syntax tree builder, the printer,
  the optional type checker, the network) are modelled explicitly, as the
  specification directs, behind narrow interfaces.
-/

set_option linter.unusedVariables false

/-! ### String helpers (JavaScript string primitives used by the source) -/

/-- Characters of a string, for index-based JavaScript string operations. -/
def charsOf (s : String) : List Char := s.data

/-- JavaScript `s.slice(0, n)` (ASCII fragment: code units = chars). -/
def takeChars (s : String) (n : Nat) : String := String.mk (s.data.take n)

/-- JavaScript `s.slice(n)`. -/
def dropChars (s : String) (n : Nat) : String := String.mk (s.data.drop n)

/-- JavaScript `s.slice(a, b)`. -/
def sliceChars (s : String) (a b : Nat) : String := String.mk ((s.data.take b).drop a)

/-- First index at which `needle` occurs in `hay`, JavaScript `indexOf`
    (returns 0 for the empty needle, as `indexOf` does). -/
def idxOfAux (hay needle : List Char) (i : Nat) : Option Nat :=
  if needle.isPrefixOf hay then some i
  else
    match hay with
    | [] => none
    | _ :: t => idxOfAux t needle (i + 1)

/-- JavaScript `hay.indexOf(needle)` as an `Option Nat`. -/
def idxOf (hay needle : String) : Option Nat := idxOfAux hay.data needle.data 0

/-- JavaScript `s.startsWith(pre)` (kernel-evaluable). -/
def strStarts (s pre : String) : Bool := pre.data.isPrefixOf s.data

/-- JavaScript `s.endsWith(suf)` (kernel-evaluable). -/
def strEnds (s suf : String) : Bool := suf.data.reverse.isPrefixOf s.data.reverse

/-- Join strings with a separator (kernel-evaluable `intercalate`). -/
def strJoin (sep : String) : List String → String
  | [] => ""
  | [x] => x
  | x :: y :: t => x ++ sep ++ strJoin sep (y :: t)

/-- Split characters at LF. -/
def splitLinesAux (cur : List Char) : List Char → List (List Char)
  | [] => [cur.reverse]
  | c :: t => if c = '\n' then cur.reverse :: splitLinesAux [] t else splitLinesAux (c :: cur) t

/-- JavaScript `s.split("\n")`. -/
def splitLines (s : String) : List String := (splitLinesAux [] s.data).map String.mk

/-- Split characters at every occurrence of a non-empty separator (the
    fuel argument, at least the character count, makes the recursion
    structural; a non-empty separator consumes a character per step, so
    the zero-fuel case is never reached from `splitSep`). -/
def splitSepAux (sep : List Char) : Nat → List Char → List Char → List (List Char)
  | _, cur, [] => [cur.reverse]
  | 0, cur, cs => [cur.reverse ++ cs]
  | fuel + 1, cur, c :: t =>
      if sep.isPrefixOf (c :: t) ∧ sep ≠ [] then
        cur.reverse :: splitSepAux sep fuel [] ((c :: t).drop sep.length)
      else splitSepAux sep fuel (c :: cur) t

/-- JavaScript `s.split(sep)` for a non-empty separator. -/
def splitSep (s sep : String) : List String :=
  if sep.data = [] then [s] else (splitSepAux sep.data s.data.length [] s.data).map String.mk

/-- Replace every occurrence of a non-empty pattern (fuelled as in
    `splitSepAux`). -/
def replaceAllAux (pat rep : List Char) : Nat → List Char → List Char
  | _, [] => []
  | 0, cs => cs
  | fuel + 1, c :: t =>
      if pat.isPrefixOf (c :: t) ∧ pat ≠ [] then
        rep ++ replaceAllAux pat rep fuel ((c :: t).drop pat.length)
      else c :: replaceAllAux pat rep fuel t

/-- JavaScript global `s.replace(pat, rep)` with a literal pattern. -/
def replaceAll (s pat rep : String) : String :=
  String.mk (replaceAllAux pat.data rep.data s.data.length s.data)

/-- JavaScript `s.trim()` (kernel-evaluable). -/
def strTrim (s : String) : String :=
  String.mk (((s.data.dropWhile Char.isWhitespace).reverse.dropWhile Char.isWhitespace).reverse)

/-- Lower-case one ASCII character. -/
def lowChar (c : Char) : Char :=
  if 65 ≤ c.toNat ∧ c.toNat ≤ 90 then Char.ofNat (c.toNat + 32) else c

/-- JavaScript `s.toLowerCase()` (ASCII fragment). -/
def strLower (s : String) : String := String.mk (s.data.map lowChar)

/-- Strip one trailing carriage return from a line (the syntax tree sees
    CRLF line terminators as trivia; the printer re-emits LF only). -/
def stripCR (s : String) : String :=
  if strEnds s "\r" then takeChars s (s.length - 1) else s

/-- Opening brace as a string. -/
def lbrace : String := String.singleton (Char.ofNat 123)

/-- Closing brace as a string. -/
def rbrace : String := String.singleton (Char.ofNat 125)

/-- The trivial printed type `\x7b\x7d` that the source treats as an unusable
    oracle answer (`typeText !== "{}"`). -/
def emptyShape : String := lbrace ++ rbrace

/-! ### Syntax-tree model

The source manipulates TypeScript AST nodes produced by the external
parser (`ts.createSourceFile`).  The fragment of the node language the
inference engine inspects is embedded as mutually inductive types: the
expression forms `inferExpressionType` distinguishes, the statement forms
the return-statement walk distinguishes (a nested function-like subtree is
one constructor, since the walk never descends into one), and parameter
declarations. -/

/-- Binary operator tokens distinguished by `inferExpressionType`.
    `otherOp` covers every other `ts.BinaryExpression` operator, for which
    the source falls through to the final `"any"`. -/
inductive BinOp where
  | plus | minus | star | slash | percent | starStar
  | gt | ge | lt | le | eqeq | eqeqeq | neq | neqeq | instanceOf | inKw
  | andAnd | orOr | qq
  | assign | plusAssign | minusAssign | slashAssign | starAssign | percentAssign
  | otherOp
deriving DecidableEq, Repr

mutual

/-- Expression forms distinguished by `inferExpressionType` in the source.
    `funcLit` is an arrow-function or function expression (the source
    answers `"Function"` without looking inside, so only the body is kept,
    for the return-statement walk of an enclosing function to skip).
    `otherExpr` covers every remaining expression kind (source: final
    return `"any"`). -/
inductive Expr where
  | numLit (text : String)
  | strLit (text : String)
  | templateLit (text : String)
  | boolLit (b : Bool)
  | nullLit
  | arrayLit
  | objectLit
  | ident (name : String)
  | paren (e : Expr)
  | asCast (e : Expr) (typeText : String)
  | typeAssertionCast (e : Expr) (typeText : String)
  | notOp (e : Expr)
  | plusOp (e : Expr)
  | minusOp (e : Expr)
  | otherPrefixOp (e : Expr)
  | bin (op : BinOp) (l r : Expr)
  | awaitOp (e : Expr)
  | condOp (c t f : Expr)
  | funcLit (body : List Stmt)
  | otherExpr
deriving Repr

/-- Statement forms distinguished by the return-statement walk in
    `inferReturnTypeText`.  `nestedFunction` stands for any nested
    function-like declaration (`isFunctionLike` in the source: function
    declaration, method, accessor, constructor); the walk returns without
    descending into it.  `otherStmt` is any statement with no return
    statement anywhere outside of nested function-likes. -/
inductive Stmt where
  | ret (e : Option Expr)
  | block (ss : List Stmt)
  | exprStmt (e : Expr)
  | nestedFunction (ps : List Param) (body : List Stmt)
  | otherStmt
deriving Repr

/-- A parameter declaration: optional identifier binding name (`none` for
    a destructuring pattern), optional type annotation text
    (`param.type.getText()`), optional default-value initializer, rest
    marker (`dotDotDotToken`). -/
inductive Param where
  | mk (nameId : Option String) (typeAnn : Option String) (dflt : Option Expr) (isRest : Bool)
deriving Repr

end

/-- Binding name of a parameter, `none` when not a simple identifier. -/
def Param.nameId : Param → Option String
  | .mk n _ _ _ => n

/-- Type-annotation text of a parameter, if annotated. -/
def Param.typeAnn : Param → Option String
  | .mk _ t _ _ => t

/-- Default-value initializer of a parameter, if present. -/
def Param.dflt : Param → Option Expr
  | .mk _ _ d _ => d

/-- Whether the parameter is a rest parameter. -/
def Param.isRest : Param → Bool
  | .mk _ _ _ r => r

/-- Body of a function-like declaration: a block of statements, or (for an
    arrow function only) a bare expression body. -/
inductive FnBody where
  | block (ss : List Stmt)
  | exprBody (e : Expr)
deriving Repr

/-- A function-like declaration as the inference engine sees it
    (`ts.FunctionLikeDeclaration`): async modifier, parameter list, return
    type annotation text (`node.type.getText()`), optional body. -/
structure Fn where
  isAsync : Bool
  params : List Param
  retAnn : Option String
  body : Option FnBody
deriving Repr

/-- The semantic oracle (TypeScript `ts.TypeChecker`), an external
    capability per the specification.  `signatureReturnText` models
    `getSignatureFromDeclaration` (`none` when no signature is available)
    followed by `getReturnTypeOfSignature` and `typeToString`;
    `paramTypeText` models `getTypeAtLocation` followed by `typeToString`. -/
structure Checker where
  signatureReturnText : Fn → Option String
  paramTypeText : Param → String

/-! ### Parameter-type environment (a JavaScript `Map<string, string>`) -/

/-- `Map.get`: first (unique) binding for `k`. -/
def envGet (env : List (String × String)) (k : String) : Option String :=
  match env with
  | [] => none
  | (a, b) :: t => if a = k then some b else envGet t k

/-- `Map.set`: replace the binding for `k`, else append it. -/
def envSet (env : List (String × String)) (k v : String) : List (String × String) :=
  match env with
  | [] => [(k, v)]
  | (a, b) :: t => if a = k then (a, v) :: t else (a, b) :: envSet t k v

/-! ### TypeInferenceEngine -/

/-- Translation of `inferExpressionType` (src/index.ts lines 742-877):
    syntactic type inference on expressions, recursively, against the
    parameter-type environment of the enclosing function. -/
def inferExpressionType (expression : Expr) (parameterTypes : List (String × String)) : String :=
  match expression with
  | .paren e => inferExpressionType e parameterTypes
  | .numLit _ => "number"
  | .strLit _ => "string"
  | .templateLit _ => "string"
  | .boolLit _ => "boolean"
  | .arrayLit => "Array<any>"
  | .objectLit => "object"
  | .nullLit => "null"
  | .funcLit _ => "Function"
  | .ident name =>
      match envGet parameterTypes name with
      | some t => if t = "" then "any" else t
      | none => "any"
  | .asCast _ typeText => typeText
  | .typeAssertionCast _ typeText => typeText
  | .notOp _ => "boolean"
  | .plusOp _ => "number"
  | .minusOp _ => "number"
  | .otherPrefixOp _ => "any"
  | .bin op l r =>
      let left := inferExpressionType l parameterTypes
      let right := inferExpressionType r parameterTypes
      match op with
      | .plus =>
          if left = "string" ∨ right = "string" then "string"
          else if left = "number" ∧ right = "number" then "number"
          else "any"
      | .minus | .star | .slash | .percent | .starStar => "number"
      | .gt | .ge | .lt | .le | .eqeq | .eqeqeq | .neq | .neqeq
      | .instanceOf | .inKw => "boolean"
      | .andAnd | .orOr | .qq =>
          if left = right then left else left ++ " | " ++ right
      | .assign | .plusAssign | .minusAssign | .slashAssign
      | .starAssign | .percentAssign => right
      | .otherOp => "any"
  | .awaitOp _ => "Promise<any>"
  | .condOp _ t f =>
      let whenTrue := inferExpressionType t parameterTypes
      let whenFalse := inferExpressionType f parameterTypes
      if whenTrue = whenFalse then whenTrue else whenTrue ++ " | " ++ whenFalse
  | .otherExpr => "any"

/-- The checker consultation at the head of `inferParameterType`
    (src/index.ts lines 883-889): usable only when the printed type is
    non-empty and not the empty-shape placeholder. -/
def oracleParamText (param : Param) (checker : Option Checker) : Option String :=
  match checker with
  | some c =>
      let typeText := c.paramTypeText param
      if typeText ≠ "" ∧ typeText ≠ emptyShape then some typeText else none
  | none => none

/-- Translation of `inferParameterType` (src/index.ts lines 879-904).
    Note the order in the source: the checker is consulted first and its
    answer is returned whenever it is usable; only then the explicit
    annotation, the default-value initializer (against an empty
    environment, `new Map()`), the rest marker, and the `"any"` fallback. -/
def inferParameterType (param : Param) (checker : Option Checker) : String :=
  match oracleParamText param checker with
  | some typeText => typeText
  | none =>
      match param.typeAnn with
      | some t => t
      | none =>
          match param.dflt with
          | some e => inferExpressionType e []
          | none => if param.isRest then "Array<any>" else "any"

/-- Translation of `getParameterTypeMap` (src/index.ts lines 973-986). -/
def getParameterTypeMap (parameters : List Param) (checker : Option Checker) :
    List (String × String) :=
  parameters.foldl (fun acc param =>
    match param.nameId with
    | some n => envSet acc n (inferParameterType param checker)
    | none => acc) []

/-- Translation of `finalizeReturnType` (src/index.ts lines 988-1005). -/
def finalizeReturnType (inferredType : String) (node : Fn) : String :=
  if !node.isAsync then inferredType
  else if strStarts inferredType "Promise<" then inferredType
  else "Promise<" ++ inferredType ++ ">"

mutual

/-- The `walk` of `inferReturnTypeText` (src/index.ts lines 712-726) on one
    statement: record `"void"` for an expressionless `return`, the inferred
    expression type for a `return` with an expression, recurse into child
    statements, and return without descending when the node is
    function-like.  (A return statement can occur inside an expression only
    inside a function literal, which the source walk also skips, so the
    walk need not descend into expressions.) -/
def collectReturnsStmt (parameterTypes : List (String × String)) : Stmt → List String
  | .ret none => ["void"]
  | .ret (some e) => [inferExpressionType e parameterTypes]
  | .block ss => collectReturnsStmts parameterTypes ss
  | .exprStmt _ => []
  | .nestedFunction _ _ => []
  | .otherStmt => []

/-- The `walk` over a list of child statements, in child order. -/
def collectReturnsStmts (parameterTypes : List (String × String)) : List Stmt → List String
  | [] => []
  | s :: ss => collectReturnsStmt parameterTypes s ++ collectReturnsStmts parameterTypes ss

end

/-- One insertion into the `Set<string>` of collected return types:
    JavaScript `Set.add` keeps insertion order and drops duplicates. -/
def addToSet (l : List String) (s : String) : List String :=
  if s ∈ l then l else l ++ [s]

/-- The contents of the JavaScript `Set<string>` after inserting the
    collected values in walk order: distinct values, first-seen order. -/
def dedupFirstSeen (l : List String) : List String := l.foldl addToSet []

/-- The checker consultation at the head of `inferReturnTypeText`
    (src/index.ts lines 683-694): usable only when a signature exists and
    its printed return type is non-empty and not the empty-shape
    placeholder. -/
def oracleReturnText (node : Fn) (checker : Option Checker) : Option String :=
  match checker with
  | some c =>
      match c.signatureReturnText node with
      | some typeText =>
          if typeText ≠ "" ∧ typeText ≠ emptyShape then some typeText else none
      | none => none
  | none => none

/-- Translation of `inferReturnTypeText` (src/index.ts lines 679-740):
    checker first; then the explicit annotation; `"void"` for a missing
    body; direct expression inference (finalized) for an expression-bodied
    arrow; otherwise the deduplicating return-statement walk with the
    void-discarding join, finalized. -/
def inferReturnTypeText (node : Fn) (checker : Option Checker) : String :=
  match oracleReturnText node checker with
  | some typeText => typeText
  | none =>
    let parameterTypes := getParameterTypeMap node.params checker
    match node.retAnn with
    | some t => t
    | none =>
      match node.body with
      | none => "void"
      | some (.exprBody e) =>
          finalizeReturnType (inferExpressionType e parameterTypes) node
      | some (.block ss) =>
          let returnTypes := dedupFirstSeen (collectReturnsStmts parameterTypes ss)
          if returnTypes.isEmpty then "void"
          else
            let types := returnTypes.filter (fun t => t ≠ "void")
            if types.isEmpty then finalizeReturnType "void" node
            else finalizeReturnType (strJoin " | " types) node

/-! ### ConfigResolver

The configuration types of the source, with partial (caller/file supplied)
and normalized forms.  JavaScript falsiness on strings (`!s`) is the
empty-string test; on optional strings it is absence or emptiness. -/

/-- JavaScript truthiness of a string value. -/
def strTruthy (s : String) : Bool := s ≠ ""

/-- JavaScript truthiness of a `string | undefined` value. -/
def optTruthy (s : Option String) : Bool :=
  match s with
  | some v => v ≠ ""
  | none => false

/-- JavaScript `a || b` on `string | undefined` values. -/
def orFalsy (a b : Option String) : Option String :=
  if optTruthy a then a else b

/-- Partial `template` section of `JSDocBuilderConfig`. -/
structure TemplatePart where
  descriptionLine : Option String := none
  paramLine : Option String := none
  returnsLine : Option String := none

/-- Partial `ai` section of `JSDocBuilderConfig`.  The provider arrives as
    an arbitrary JSON string and is only later coerced by
    `normalizeProvider`. -/
structure AIPart where
  provider : Option String := none
  enabled : Option Bool := none
  apiKey : Option String := none
  model : Option String := none
  baseUrl : Option String := none
  timeoutMs : Option Int := none
  promptTemplate : Option String := none

/-- A partial configuration contribution (`Partial<JSDocBuilderConfig>`):
    the built-in defaults, the parsed config file, the caller-supplied
    inline config, and the disable-AI override all have this shape. -/
structure JSDocBuilderConfigPart where
  template : Option TemplatePart := none
  ai : Option AIPart := none
  includeReturnsWhenVoid : Option Bool := none

/-- Normalized `template` section. -/
structure TemplateN where
  descriptionLine : String
  paramLine : String
  returnsLine : String
deriving DecidableEq, Repr

/-- Normalized `ai` section.  `provider` stays a string at runtime (the
    TypeScript union is erased); `normalizeProvider` confines it to the two
    known values. -/
structure AIN where
  provider : String
  enabled : Bool
  apiKey : Option String
  model : String
  baseUrl : String
  timeoutMs : Int
  promptTemplate : String
deriving DecidableEq, Repr

/-- `NormalizedConfig` of the source. -/
structure NormalizedConfig where
  template : TemplateN
  ai : AIN
  includeReturnsWhenVoid : Bool
deriving DecidableEq, Repr

/-- `DEFAULT_PROMPT_TEMPLATE` of the source. -/
def DEFAULT_PROMPT_TEMPLATE : String :=
  "Write one concise sentence for the JSDoc @description of function " ++
  "'" ++ lbrace ++ lbrace ++ "functionName" ++ rbrace ++ rbrace ++ "'. Parameters: " ++
  lbrace ++ lbrace ++ "parameters" ++ rbrace ++ rbrace ++ ". Return type: " ++
  lbrace ++ lbrace ++ "returnType" ++ rbrace ++ rbrace ++ ". Source: " ++
  lbrace ++ lbrace ++ "sourceSnippet" ++ rbrace ++ rbrace

/-- `OPENAI_AI_DEFAULTS` of the source. -/
def OPENAI_AI_DEFAULTS : AIN :=
  { provider := "openai"
    enabled := false
    apiKey := none
    model := "gpt-4o-mini"
    baseUrl := "https://api.openai.com/v1/chat/completions"
    timeoutMs := 12000
    promptTemplate := DEFAULT_PROMPT_TEMPLATE }

/-- `GEMINI_AI_DEFAULTS` of the source. -/
def GEMINI_AI_DEFAULTS : AIN :=
  { provider := "gemini"
    enabled := false
    apiKey := none
    model := "gemini-1.5-flash"
    baseUrl := "https://generativelanguage.googleapis.com/v1beta"
    timeoutMs := 12000
    promptTemplate := DEFAULT_PROMPT_TEMPLATE }

/-- `DEFAULT_CONFIG` of the source (template lines built with literal
    braces). -/
def DEFAULT_CONFIG : NormalizedConfig :=
  { template :=
      { descriptionLine := "@description " ++ lbrace ++ lbrace ++ "description" ++ rbrace ++ rbrace
        paramLine := "@param " ++ lbrace ++ "$" ++ lbrace ++ "type" ++ rbrace ++ rbrace ++
          " $" ++ lbrace ++ "name" ++ rbrace
        returnsLine := "@returns " ++ lbrace ++ "$" ++ lbrace ++ "type" ++ rbrace ++ rbrace }
    ai :=
      { provider := "openai"
        enabled := false
        apiKey := none
        model := OPENAI_AI_DEFAULTS.model
        baseUrl := OPENAI_AI_DEFAULTS.baseUrl
        timeoutMs := OPENAI_AI_DEFAULTS.timeoutMs
        promptTemplate := OPENAI_AI_DEFAULTS.promptTemplate }
    includeReturnsWhenVoid := true }

/-- One step of the spread-merge of `mergeDeep` (src/index.ts lines
    939-971): object spread overrides a field exactly when the source has
    the key. -/
def mergeTemplateInto (acc : TemplateN) (p : TemplatePart) : TemplateN :=
  { descriptionLine := p.descriptionLine.getD acc.descriptionLine
    paramLine := p.paramLine.getD acc.paramLine
    returnsLine := p.returnsLine.getD acc.returnsLine }

/-- Spread-merge of one partial `ai` section into the accumulator. -/
def mergeAIInto (acc : AIN) (p : AIPart) : AIN :=
  { provider := p.provider.getD acc.provider
    enabled := p.enabled.getD acc.enabled
    apiKey := match p.apiKey with | some k => some k | none => acc.apiKey
    model := p.model.getD acc.model
    baseUrl := p.baseUrl.getD acc.baseUrl
    timeoutMs := p.timeoutMs.getD acc.timeoutMs
    promptTemplate := p.promptTemplate.getD acc.promptTemplate }

/-- One source of `mergeDeep`'s fold. -/
def mergeOneInto (acc : NormalizedConfig) (src : JSDocBuilderConfigPart) : NormalizedConfig :=
  { template := match src.template with
      | some t => mergeTemplateInto acc.template t
      | none => acc.template
    ai := match src.ai with
      | some a => mergeAIInto acc.ai a
      | none => acc.ai
    includeReturnsWhenVoid := src.includeReturnsWhenVoid.getD acc.includeReturnsWhenVoid }

/-- Translation of `mergeDeep` (src/index.ts lines 939-971): a result
    seeded from `DEFAULT_CONFIG`, then each source folded in precedence
    order. -/
def mergeDeep (sources : List JSDocBuilderConfigPart) : NormalizedConfig :=
  sources.foldl mergeOneInto DEFAULT_CONFIG

/-- Translation of `normalizeProvider` (src/index.ts lines 1023-1025). -/
def normalizeProvider (provider : String) : String :=
  if provider = "gemini" then "gemini" else "openai"

/-- The environment variables consulted by `resolveApiKeyFromEnv`. -/
structure Env where
  openaiApiKey : Option String := none
  geminiApiKey : Option String := none
  googleApiKey : Option String := none

/-- Translation of `resolveApiKeyFromEnv` (src/index.ts lines 1027-1033),
    with JavaScript `||` falsiness on the environment values. -/
def resolveApiKeyFromEnv (provider : String) (env : Env) : Option String :=
  if provider = "gemini" then orFalsy env.geminiApiKey env.googleApiKey
  else env.openaiApiKey

/-- Translation of `applyProviderDefaults` (src/index.ts lines 1035-1062),
    functionally (the source mutates `ai` in place). -/
def applyProviderDefaults (ai : AIN) : AIN :=
  let ai :=
    if ai.provider = "gemini" then
      let ai := if ¬ strTruthy ai.model ∨ ai.model = OPENAI_AI_DEFAULTS.model then
          { ai with model := GEMINI_AI_DEFAULTS.model } else ai
      if ¬ strTruthy ai.baseUrl ∨ ai.baseUrl = OPENAI_AI_DEFAULTS.baseUrl then
          { ai with baseUrl := GEMINI_AI_DEFAULTS.baseUrl } else ai
    else
      let ai := if ¬ strTruthy ai.model ∨ ai.model = GEMINI_AI_DEFAULTS.model then
          { ai with model := OPENAI_AI_DEFAULTS.model } else ai
      if ¬ strTruthy ai.baseUrl ∨ ai.baseUrl = GEMINI_AI_DEFAULTS.baseUrl then
          { ai with baseUrl := OPENAI_AI_DEFAULTS.baseUrl } else ai
  let ai := if ¬ strTruthy ai.promptTemplate then
      { ai with promptTemplate := DEFAULT_PROMPT_TEMPLATE } else ai
  if ai.timeoutMs = 0 ∨ ai.timeoutMs ≤ 0 then
    { ai with timeoutMs :=
        if ai.provider = "gemini" then GEMINI_AI_DEFAULTS.timeoutMs
        else OPENAI_AI_DEFAULTS.timeoutMs }
  else ai

/-- `GenerateJSDocOptions` of the source (the config path is consumed by
    the external file read; its parsed result arrives as `fileConfig`). -/
structure GenerateJSDocOptions where
  config : Option JSDocBuilderConfigPart := none
  disableAI : Bool := false

/-- The disable-AI override source, `{ ai: { enabled: false } }`. -/
def disableAIPart : JSDocBuilderConfigPart :=
  { ai := some { enabled := some false } }

/-- Translation of `loadConfig` (src/index.ts lines 219-241).  `fileConfig`
    is the parsed on-disk config file, already degraded to the empty
    contribution on parse failure or a non-object root, as `loadConfigFile`
    guarantees. -/
def loadConfig (fileConfig : JSDocBuilderConfigPart) (options : GenerateJSDocOptions)
    (env : Env) : NormalizedConfig :=
  let merged := mergeDeep
    [⟨some {descriptionLine := some DEFAULT_CONFIG.template.descriptionLine,
            paramLine := some DEFAULT_CONFIG.template.paramLine,
            returnsLine := some DEFAULT_CONFIG.template.returnsLine},
      some {provider := some DEFAULT_CONFIG.ai.provider,
            enabled := some DEFAULT_CONFIG.ai.enabled,
            apiKey := none,
            model := some DEFAULT_CONFIG.ai.model,
            baseUrl := some DEFAULT_CONFIG.ai.baseUrl,
            timeoutMs := some DEFAULT_CONFIG.ai.timeoutMs,
            promptTemplate := some DEFAULT_CONFIG.ai.promptTemplate},
      some DEFAULT_CONFIG.includeReturnsWhenVoid⟩,
     fileConfig,
     options.config.getD {},
     if options.disableAI then disableAIPart else {}]
  let merged := { merged with ai := { merged.ai with provider := normalizeProvider merged.ai.provider } }
  let merged := { merged with ai := applyProviderDefaults merged.ai }
  let envApiKey := resolveApiKeyFromEnv merged.ai.provider env
  let merged :=
    if ¬ optTruthy merged.ai.apiKey ∧ optTruthy envApiKey then
      { merged with ai := { merged.ai with apiKey := envApiKey } }
    else merged
  if merged.ai.enabled ∧ ¬ optTruthy merged.ai.apiKey then
    { merged with ai := { merged.ai with enabled := false } }
  else merged

/-! ### CommentSynthesizer -/

/-- Translation of `formatTemplate` (src/index.ts lines 926-933): for each
    entry, in insertion order, every `\x7b\x7bkey\x7d\x7d` and
    `$\x7bkey\x7d` occurrence is replaced by the value.  (The source
    regexes tolerate inner whitespace around the key; none of the
    templates in the system use it, and the model matches the exact
    forms.) -/
def formatTemplate (template : String) (values : List (String × String)) : String :=
  values.foldl (fun output kv =>
    let output := replaceAll output (lbrace ++ lbrace ++ kv.1 ++ rbrace ++ rbrace) kv.2
    replaceAll output ("$" ++ lbrace ++ kv.1 ++ rbrace) kv.2) template

/-- Translation of `createJSDocComment` (src/index.ts lines 462-505):
    description line, one line per parameter, the returns line unless the
    return type is `"void"` and returns-for-void is disabled; each line
    prefixed and the whole wrapped as multi-line comment text. -/
def createJSDocComment (functionName : String) (parameters : List (String × String))
    (returnType : String) (description : String) (config : NormalizedConfig) : String :=
  let lines := [formatTemplate config.template.descriptionLine
    [("functionName", functionName), ("description", description),
     ("returnType", returnType), ("paramsCount", toString parameters.length)]]
  let lines := lines ++ parameters.map (fun param =>
    formatTemplate config.template.paramLine
      [("functionName", functionName), ("description", description),
       ("type", param.2), ("name", param.1), ("returnType", returnType)])
  let lines :=
    if config.includeReturnsWhenVoid ∨ returnType ≠ "void" then
      lines ++ [formatTemplate config.template.returnsLine
        [("functionName", functionName), ("description", description),
         ("type", returnType), ("returnType", returnType)]]
    else lines
  let withPrefix := lines.map (fun line => " * " ++ line)
  "*\n" ++ strJoin "\n" withPrefix ++ "\n "

/-- Translation of `getParameterName` (src/index.ts lines 914-920). -/
def getParameterName (param : Param) (index : Nat) : String :=
  match param.nameId with
  | some n => n
  | none => "param" ++ toString (index + 1)

/-- Translation of `getFunctionNameFromVariable` (src/index.ts lines
    906-912), on the optional identifier text of the binding name. -/
def getFunctionNameFromVariable (name : Option String) : String :=
  name.getD "anonymousFunction"

/-! ### AI adapters

The network is external.  A single request is modelled by an
`HttpOutcome`; the response body, when one parses, is a JSON value. -/

/-- A parsed JSON value (what `JSON.parse` yields inside `postJson`). -/
inductive JsonV where
  | str (s : String)
  | num (n : Int)
  | boolJ (b : Bool)
  | nullJ
  | arr (xs : List JsonV)
  | obj (fields : List (String × JsonV))
deriving Repr

/-- Optional chaining `j?.k`: field lookup on an object, `undefined`
    otherwise. -/
def jField (j : JsonV) (k : String) : Option JsonV :=
  match j with
  | .obj fields => fields.lookup k
  | _ => none

/-- Optional chaining `j?.[i]`: index lookup on an array. -/
def jIndex (j : JsonV) (i : Nat) : Option JsonV :=
  match j with
  | .arr xs => xs.get? i
  | _ => none

/-- The observable outcome of one HTTPS POST (src/index.ts `postJson`,
    lines 619-668): the request timed out (`req.destroy` on the timeout,
    surfacing as an error event), failed in transport, or completed with a
    status code and a body (`none` when `JSON.parse` fails on it). -/
inductive HttpOutcome where
  | timeout
  | transportError
  | response (status : Nat) (body : Option JsonV)
deriving Repr

/-- Translation of `postJson`'s promise resolution (src/index.ts lines
    640-667): reject on timeout or transport error; reject when the status
    is missing/0 or at least 400; reject when the body does not parse;
    otherwise resolve with the parsed body. -/
def postJson (outcome : HttpOutcome) : Except String JsonV :=
  match outcome with
  | .timeout => .error "AI request timeout"
  | .transportError => .error "transport error"
  | .response status body =>
      if status = 0 ∨ 400 ≤ status then .error "AI request failed"
      else
        match body with
        | some j => .ok j
        | none => .error "Invalid AI response"

/-- `content.replace(/[\r\n]+/g, " ")`: every maximal run of carriage
    returns and line feeds becomes a single space. -/
def collapseNewlines (s : String) : String :=
  String.mk ((s.data.foldr (fun c (acc : List Char × Bool) =>
    if c = '\r' ∨ c = '\n' then
      if acc.2 then acc else (' ' :: acc.1, true)
    else (c :: acc.1, false)) ([], false)).1)

/-- `snippet.replace(/\s+/g, " ")`: every maximal whitespace run becomes a
    single space. -/
def collapseWhitespace (s : String) : String :=
  String.mk ((s.data.foldr (fun c (acc : List Char × Bool) =>
    if c.isWhitespace then
      if acc.2 then acc else (' ' :: acc.1, true)
    else (c :: acc.1, false)) ([], false)).1)

/-- The optional chain `response?.choices?.[0]?.message?.content`. -/
def openAIContent (response : JsonV) : Option JsonV :=
  jField response "choices" >>= (jIndex · 0) >>= (jField · "message") >>= (jField · "content")

/-- Translation of `requestDescriptionFromOpenAI` (src/index.ts lines
    529-565): await `postJson`, extract
    `response?.choices?.[0]?.message?.content`, require a string, collapse
    newlines and trim; `undefined` on any caught error or non-string
    content.  The prompt and payload shape only affect the request, which
    the outcome parameter models. -/
def requestDescriptionFromOpenAI (prompt : String) (aiConfig : AIN)
    (outcome : HttpOutcome) : Option String :=
  match postJson outcome with
  | .error _ => none
  | .ok response =>
      match openAIContent response with
      | some (.str content) => some (strTrim (collapseNewlines content))
      | _ => none

/-- The optional chain `response?.candidates?.[0]?.content?.parts`. -/
def geminiParts (response : JsonV) : Option JsonV :=
  jField response "candidates" >>= (jIndex · 0) >>= (jField · "content") >>= (jField · "parts")

/-- One part mapped as in the source: its `text` field when that is a
    string, the empty string otherwise. -/
def geminiPartText (part : JsonV) : String :=
  match jField part "text" with
  | some (.str t) => t
  | _ => ""

/-- Translation of `requestDescriptionFromGemini` (src/index.ts lines
    567-617): guard on the api key, await `postJson`, require
    `response?.candidates?.[0]?.content?.parts` to be an array, join its
    string `text` parts with spaces and trim, reject empty content,
    collapse newlines and trim.  (Endpoint building, `buildGeminiEndpoint`,
    only shapes the request and is subsumed by the outcome parameter.) -/
def requestDescriptionFromGemini (prompt : String) (aiConfig : AIN)
    (outcome : HttpOutcome) : Option String :=
  if ¬ optTruthy aiConfig.apiKey then none
  else
    match postJson outcome with
    | .error _ => none
    | .ok response =>
        match geminiParts response with
        | some (.arr parts) =>
            let content := strTrim (strJoin " " (parts.map geminiPartText))
            if content = "" then none
            else some (strTrim (collapseNewlines content))
        | _ => none

/-- The context record handed to description synthesis
    (`AIDescriptionContext`), with parameters as (name, type) pairs. -/
structure AIDescriptionContext where
  functionName : String
  returnType : String
  parameters : List (String × String)
  sourceSnippet : String
deriving Repr

/-- Translation of `requestDescriptionFromAI` (src/index.ts lines
    507-527): guard on the api key, build the prompt from the prompt
    template, dispatch on the provider. -/
def requestDescriptionFromAI (context : AIDescriptionContext) (aiConfig : AIN)
    (outcome : HttpOutcome) : Option String :=
  if ¬ optTruthy aiConfig.apiKey then none
  else
    let prompt := formatTemplate aiConfig.promptTemplate
      [("functionName", context.functionName),
       ("returnType", context.returnType),
       ("parameters", strJoin ", "
         (context.parameters.map (fun p => p.1 ++ ":" ++ p.2))),
       ("sourceSnippet", takeChars (strTrim (collapseWhitespace context.sourceSnippet)) 300)]
    if aiConfig.provider = "gemini" then requestDescriptionFromGemini prompt aiConfig outcome
    else requestDescriptionFromOpenAI prompt aiConfig outcome

/-- Translation of `createDescription` (src/index.ts lines 445-460),
    paired with the list of console messages the call emits.  The source
    contains no console statement on any path of `createDescription`,
    `requestDescriptionFromAI`, `requestDescriptionFromOpenAI`,
    `requestDescriptionFromGemini` or `postJson` (the catch blocks return
    `undefined` silently), so the message list is `[]` on every path. -/
def createDescription (context : AIDescriptionContext) (config : NormalizedConfig)
    (outcome : HttpOutcome) : String × List String :=
  if ¬ config.ai.enabled ∨ ¬ optTruthy config.ai.apiKey then
    (context.functionName ++ " function", [])
  else
    match requestDescriptionFromAI context config.ai outcome with
    | none => (context.functionName ++ " function", [])
    | some aiDescription =>
        if aiDescription = "" then (context.functionName ++ " function", [])
        else (aiDescription, [])

/-! ### SourceUnitExtractor, SyntaxIndex and Patcher model

`transformCode` delegates parsing to `ts.createSourceFile` and re-emission
to `ts.createPrinter({ newLine: ts.NewLineKind.LineFeed })`, both external.
They are modelled concretely on a line-based fragment of the script
language: a source unit is a list of lines; a line in canonical form
declares a function (`[async ]function name(params) \x7b body \x7d`) or a
single-declarator arrow binding (`const name = (params) => expr;`), may be
preceded by a one-line documentation comment, and any other line is an
opaque statement reproduced verbatim.  The printer emits the tree in its
canonical layout and joins lines with LF (the `NewLineKind.LineFeed`
choice in the source), which is the printer behaviour the frame claims
depend on.  CRLF line terminators are trivia to the parser and are not
re-emitted. -/

/-- Identifier characters of the fragment. -/
def isIdentChar (c : Char) : Bool := c.isAlphanum ∨ c = '_'

/-- A non-empty identifier not starting with a digit. -/
def isIdentStr (s : String) : Bool :=
  s ≠ "" ∧ s.data.all isIdentChar ∧ ¬ (s.data.head?.elim false Char.isDigit)

/-- `chopPrefix s pre` removes a literal prefix, `none` if absent. -/
def chopPrefix (s pre : String) : Option String :=
  if strStarts s pre then some (dropChars s pre.length) else none

/-- Split at the first occurrence of a separator. -/
def splitOnFirst (s sep : String) : Option (String × String) :=
  match idxOf s sep with
  | some i => some (takeChars s i, dropChars s (i + sep.length))
  | none => none

/-- Parse an atomic expression of the fragment. -/
def parseAtom (s : String) : Option Expr :=
  if s = "" then none
  else if s.data.all Char.isDigit then some (.numLit s)
  else if s = "true" then some (.boolLit true)
  else if s = "false" then some (.boolLit false)
  else if s = "null" then some .nullLit
  else if strStarts s "\"" ∧ strEnds s "\"" ∧ 2 ≤ s.length then
    some (.strLit (sliceChars s 1 (s.length - 1)))
  else if isIdentStr s then some (.ident s)
  else none

/-- Parse one parameter declaration of the fragment. -/
def parseParamDecl (s : String) : Option Param :=
  if strStarts s "..." then
    let n := dropChars s 3
    if isIdentStr n then some (.mk (some n) none none true) else none
  else
    match splitOnFirst s ": " with
    | some (n, t) =>
        if isIdentStr n ∧ t ≠ "" then some (.mk (some n) (some t) none false) else none
    | none =>
        match splitOnFirst s " = " with
        | some (n, d) =>
            if isIdentStr n then (parseAtom d).map (fun e => Param.mk (some n) none (some e) false)
            else none
        | none => if isIdentStr s then some (.mk (some s) none none false) else none

/-- Parse a comma-separated parameter list. -/
def parseParams (s : String) : Option (List Param) :=
  if s = "" then some [] else (splitSep s ", ").mapM parseParamDecl

/-- Parse the interior of a one-line block body. -/
def parseBody (s : String) : Option (List Stmt) :=
  if s = "" then some []
  else if s = "return;" then some [.ret none]
  else
    match chopPrefix s "return " with
    | some rest =>
        if strEnds rest ";" then
          (parseAtom (takeChars rest (rest.length - 1))).map (fun e => [Stmt.ret (some e)])
        else none
    | none => none

/-- Parse `name(params) \x7b body \x7d` after the `function ` keyword. -/
def parseFunctionForm (isAsync : Bool) (rest : String) : Option (String × Fn × Bool) :=
  match splitOnFirst rest "(" with
  | some (n, rest2) =>
      if isIdentStr n then
        match splitOnFirst rest2 ") " with
        | some (ps, rest3) =>
            if strStarts rest3 lbrace ∧ strEnds rest3 rbrace ∧ 2 ≤ rest3.length then
              let inner := strTrim (sliceChars rest3 1 (rest3.length - 1))
              match parseParams ps, parseBody inner with
              | some params, some ss =>
                  some (n, { isAsync := isAsync, params := params, retAnn := none,
                             body := some (.block ss) }, false)
              | _, _ => none
            else none
        | none => none
      else none
  | none => none

/-- Parse `name = (params) => expr;` after the `const ` keyword. -/
def parseConstForm (rest : String) : Option (String × Fn × Bool) :=
  match splitOnFirst rest " = (" with
  | some (n, rest2) =>
      if isIdentStr n then
        match splitOnFirst rest2 ") => " with
        | some (ps, rest3) =>
            if strEnds rest3 ";" ∧ 1 ≤ rest3.length then
              match parseParams ps, parseAtom (takeChars rest3 (rest3.length - 1)) with
              | some params, some e =>
                  some (n, { isAsync := false, params := params, retAnn := none,
                             body := some (.exprBody e) }, true)
              | _, _ => none
            else none
        | none => none
      else none
  | none => none

/-- Parse one line as a documentable declaration of the fragment. -/
def parseFnLine (line : String) : Option (String × Fn × Bool) :=
  match chopPrefix line "async function " with
  | some r => parseFunctionForm true r
  | none =>
      match chopPrefix line "function " with
      | some r => parseFunctionForm false r
      | none =>
          match chopPrefix line "const " with
          | some r => parseConstForm r
          | none => none

/-- A one-line block documentation comment (what the leading-trivia scan
    of `hasJSDoc` recognizes: a comment range whose text starts with
    `/**`). -/
def isDocLine (s : String) : Bool :=
  strStarts s "/**" ∧ strEnds s "*/" ∧ 5 ≤ s.length

/-- A top-level item of the parsed source unit: a documentable declaration
    (function declaration, or single-declarator variable statement whose
    initializer is an arrow function — `isVarForm`), with its attached
    leading documentation comment when present, or an opaque line. -/
inductive Item where
  | fn (doc : Option String) (name : String) (f : Fn) (isVarForm : Bool)
  | raw (line : String)
deriving Repr

/-- Parse the lines of a unit into items, attaching a documentation
    comment line to the declaration that follows it. -/
def parseLines : List String → List Item
  | [] => []
  | [l] =>
      let core := stripCR l
      if isDocLine core then [.raw l]
      else
        match parseFnLine core with
        | some (n, f, v) => [.fn none n f v]
        | none => [.raw l]
  | l :: l2 :: rest2 =>
      let core := stripCR l
      if isDocLine core then
        match parseFnLine (stripCR l2) with
        | some (n, f, v) => .fn (some core) n f v :: parseLines rest2
        | none => .raw l :: parseLines (l2 :: rest2)
      else
        match parseFnLine core with
        | some (n, f, v) => .fn none n f v :: parseLines (l2 :: rest2)
        | none => .raw l :: parseLines (l2 :: rest2)

/-- The external parse capability on a unit (`ts.createSourceFile`). -/
def parseScript (code : String) : List Item := parseLines (splitLines code)

/-- Canonical rendering of a binary operator. -/
def printBinOp : BinOp → String
  | .plus => "+" | .minus => "-" | .star => "*" | .slash => "/"
  | .percent => "%" | .starStar => "**"
  | .gt => ">" | .ge => ">=" | .lt => "<" | .le => "<="
  | .eqeq => "==" | .eqeqeq => "===" | .neq => "!=" | .neqeq => "!=="
  | .instanceOf => "instanceof" | .inKw => "in"
  | .andAnd => "&&" | .orOr => "||" | .qq => "??"
  | .assign => "=" | .plusAssign => "+=" | .minusAssign => "-="
  | .slashAssign => "/=" | .starAssign => "*=" | .percentAssign => "%="
  | .otherOp => ","

/-- Wrap printed statements as a one-line block. -/
def wrapBlock (parts : List String) : String :=
  match parts with
  | [] => lbrace ++ " " ++ rbrace
  | _ => lbrace ++ " " ++ strJoin " " parts ++ " " ++ rbrace

mutual

/-- Canonical printed form of an expression (the printer's layout). -/
def printExpr : Expr → String
  | .numLit t => t
  | .strLit t => "\"" ++ t ++ "\""
  | .templateLit t => "\"" ++ t ++ "\""
  | .boolLit true => "true"
  | .boolLit false => "false"
  | .nullLit => "null"
  | .arrayLit => "[]"
  | .objectLit => lbrace ++ rbrace
  | .ident n => n
  | .paren e => "(" ++ printExpr e ++ ")"
  | .asCast e t => printExpr e ++ " as " ++ t
  | .typeAssertionCast e t => "<" ++ t ++ ">" ++ printExpr e
  | .notOp e => "!" ++ printExpr e
  | .plusOp e => "+" ++ printExpr e
  | .minusOp e => "-" ++ printExpr e
  | .otherPrefixOp e => "~" ++ printExpr e
  | .bin op l r => printExpr l ++ " " ++ printBinOp op ++ " " ++ printExpr r
  | .awaitOp e => "await " ++ printExpr e
  | .condOp c t f => printExpr c ++ " ? " ++ printExpr t ++ " : " ++ printExpr f
  | .funcLit ss => "function () " ++ wrapBlock (printStmts ss)
  | .otherExpr => "0"

/-- Canonical printed form of a statement. -/
def printStmt : Stmt → String
  | .ret none => "return;"
  | .ret (some e) => "return " ++ printExpr e ++ ";"
  | .block ss => wrapBlock (printStmts ss)
  | .exprStmt e => printExpr e ++ ";"
  | .nestedFunction ps ss =>
      "function inner(" ++ strJoin ", " (printParams ps) ++ ") " ++
        wrapBlock (printStmts ss)
  | .otherStmt => ";"

/-- Canonical printed forms of the statements of a block. -/
def printStmts : List Stmt → List String
  | [] => []
  | s :: t => printStmt s :: printStmts t

/-- Canonical printed form of a parameter declaration. -/
def printParamDecl : Param → String
  | .mk n t d r =>
      (if r then "..." else "") ++ n.getD "_" ++
      (match t with | some ty => ": " ++ ty | none => "") ++
      (match d with | some e => " = " ++ printExpr e | none => "")

/-- Canonical printed forms of a parameter list. -/
def printParams : List Param → List String
  | [] => []
  | p :: t => printParamDecl p :: printParams t

end

/-- Canonical printed form of a block. -/
def printBlock (ss : List Stmt) : String := wrapBlock (printStmts ss)

/-- Canonical printed line of a documentable declaration. -/
def fnLineText (name : String) (f : Fn) (isVarForm : Bool) : String :=
  if isVarForm then
    "const " ++ name ++ " = (" ++ strJoin ", " (f.params.map printParamDecl) ++
      ") => " ++
      (match f.body with
       | some (.exprBody e) => printExpr e
       | some (.block ss) => printBlock ss
       | none => "0") ++ ";"
  else
    (if f.isAsync then "async " else "") ++ "function " ++ name ++ "(" ++
      strJoin ", " (f.params.map printParamDecl) ++ ") " ++
      (match f.body with
       | some (.block ss) => printBlock ss
       | some (.exprBody e) => printBlock [.ret (some e)]
       | none => ";")

/-- The source text of a node as used for the AI context snippet
    (`node.getText(sourceFile)`: the arrow/function expression for the
    variable form, the whole declaration otherwise). -/
def targetSnippet (name : String) (f : Fn) (isVarForm : Bool) : String :=
  if isVarForm then
    "(" ++ strJoin ", " (f.params.map printParamDecl) ++ ") => " ++
      (match f.body with
       | some (.exprBody e) => printExpr e
       | some (.block ss) => printBlock ss
       | none => "0")
  else fnLineText name f isVarForm

/-- The lines an item contributes to the unit text. -/
def itemLines : Item → List String
  | .fn (some d) name f v => [d, fnLineText name f v]
  | .fn none name f v => [fnLineText name f v]
  | .raw l => [l]

/-- The text of an item (its lines joined with LF). -/
def itemText (it : Item) : String := strJoin "\n" (itemLines it)

/-- Length of the leading documentation comment plus its line break —
    the leading trivia that `node.getStart()` skips. -/
def itemDocLen : Item → Nat
  | .fn (some d) _ _ _ => d.length + 1
  | _ => 0

/-- The `kind` tag entering the node key (`ts.SyntaxKind` of the anchor:
    the declaration for a function form, the enclosing variable statement
    for the single-declarator variable form, per
    `resolveVariableCommentNode`). -/
def itemKindTag : Item → String
  | .fn _ _ _ true => "VariableStatement"
  | .fn _ _ _ false => "FunctionDeclaration"
  | .raw _ => "Statement"

/-- Translation of `makeNodeKey` (src/index.ts lines 922-924): the source
    interpolates `kind:getStart():getEnd()` into a string; the model keeps
    the triple, on which that string encoding is injective.  `getStart`
    skips leading trivia (the attached comment); `getEnd` is the end of
    the node text. -/
structure NodeKey where
  kindTag : String
  startPos : Nat
  endPos : Nat
deriving DecidableEq, Repr

/-- The node key of an item whose full text starts at `base`. -/
def makeNodeKey (base : Nat) (it : Item) : NodeKey :=
  { kindTag := itemKindTag it
    startPos := base + itemDocLen it
    endPos := base + (itemText it).length }

/-- Items of a unit paired with their node keys, offsets accumulated over
    the preceding items (one LF separator each). -/
def itemsWithKeys (base : Nat) : List Item → List (NodeKey × Item)
  | [] => []
  | it :: its => (makeNodeKey base it, it) :: itemsWithKeys (base + (itemText it).length + 1) its

/-- Translation of `hasJSDoc` (src/index.ts lines 670-677): in the tree
    model, the attached-comment facility and the leading-trivia scan both
    amount to the presence of the attached documentation comment. -/
def hasJSDoc : Item → Bool
  | .fn doc _ _ _ => doc.isSome
  | .raw _ => false

/-- `ParsedTarget` of the source; `parameters` keeps the declarations,
    inference runs later in `buildCommentMap`. -/
structure ParsedTarget where
  key : NodeKey
  functionName : String
  parameters : List Param
  returnTypeText : String
  sourceSnippet : String
deriving Repr

/-- Translation of `collectTargets` (src/index.ts lines 326-376) over the
    keyed items: each documentable node whose anchor has no leading
    documentation comment becomes a target, in tree order. -/
def collectTargetsKeyed (checker : Option Checker) : List (NodeKey × Item) → List ParsedTarget
  | [] => []
  | (k, it) :: rest =>
      (match it with
       | .fn none name f v =>
           [{ key := k, functionName := name, parameters := f.params,
              returnTypeText := inferReturnTypeText f checker,
              sourceSnippet := targetSnippet name f v }]
       | _ => []) ++ collectTargetsKeyed checker rest

/-- `collectTargets` on a parsed unit. -/
def collectTargets (items : List Item) (checker : Option Checker) : List ParsedTarget :=
  collectTargetsKeyed checker (itemsWithKeys 0 items)

/-- The parameter (name, type) pairs built per target in `buildCommentMap`
    (src/index.ts lines 416-419), with positional fallback names. -/
def paramPairsAux (checker : Option Checker) (i : Nat) : List Param → List (String × String)
  | [] => []
  | p :: rest => (getParameterName p i, inferParameterType p checker) :: paramPairsAux checker (i + 1) rest

/-- Translation of the `buildCommentMap` loop (src/index.ts lines
    408-443): one awaited description per target, sequentially in
    collection order (`net i` is the network outcome of the i-th request),
    one map entry per target. -/
def buildCommentMapAux (config : NormalizedConfig) (checker : Option Checker)
    (net : Nat → HttpOutcome) (i : Nat) : List ParsedTarget → List (NodeKey × String)
  | [] => []
  | target :: rest =>
      let params := paramPairsAux checker 0 target.parameters
      let description := (createDescription
        { functionName := target.functionName, returnType := target.returnTypeText,
          parameters := params, sourceSnippet := target.sourceSnippet }
        config (net i)).1
      let comment := createJSDocComment target.functionName params target.returnTypeText
        description config
      (target.key, comment) :: buildCommentMapAux config checker net (i + 1) rest

/-- `buildCommentMap` of the source. -/
def buildCommentMap (targets : List ParsedTarget) (config : NormalizedConfig)
    (checker : Option Checker) (net : Nat → HttpOutcome) : List (NodeKey × String) :=
  buildCommentMapAux config checker net 0 targets

/-- `Map.get` on the comment map. -/
def mapLookup (m : List (NodeKey × String)) (k : NodeKey) : Option String :=
  match m with
  | [] => none
  | (a, b) :: t => if a = k then some b else mapLookup t k

/-- `addSyntheticLeadingComment(node, MultiLineCommentTrivia, comment,
    true)` as the printer renders it: a `/* ... */` block (the comment
    text begins with `*`, so the rendered form opens with `/**`) on its
    own line directly above the node, after any original leading trivia. -/
def attachComment (it : Item) (comment : String) : Item :=
  match it with
  | .fn (some d) name f v => .fn (some (d ++ "\n" ++ "/*" ++ comment ++ "*/")) name f v
  | .fn none name f v => .fn (some ("/*" ++ comment ++ "*/")) name f v
  | .raw l => .raw l

/-- The transformer of `transformCode` (src/index.ts lines 172-190): visit
    every node, attach the mapped comment when the node key is in the
    comment map. -/
def annotateKeyed (m : List (NodeKey × String)) : List (NodeKey × Item) → List Item
  | [] => []
  | (k, it) :: rest =>
      (match mapLookup m k with
       | some comment => attachComment it comment
       | none => it) :: annotateKeyed m rest

/-- The external printer (`printer.printFile` with
    `NewLineKind.LineFeed`): the items in canonical layout, joined and
    terminated with LF. -/
def printItems (items : List Item) : String :=
  strJoin "\n" (items.map itemText) ++ "\n"

/-! ### extractVueScript -/

/-- Lowercased characters (the extraction regex carries the `i` flag). -/
def lowerChars (l : List Char) : List Char := l.map lowChar

/-- Does `<script` followed by a word boundary (`\b`) match at the head? -/
def scriptOpenAt (cs : List Char) : Bool :=
  "<script".data.isPrefixOf (lowerChars cs) &&
  (match cs.drop 7 with
   | [] => true
   | d :: _ => ¬ isIdentChar d)

/-- Index of the first `<script` occurrence followed by a word boundary. -/
def findScriptOpen : List Char → Nat → Option Nat
  | [], _ => none
  | c :: t, i =>
      if scriptOpenAt (c :: t) then some i
      else findScriptOpen t (i + 1)

/-- Index of the first occurrence of a character. -/
def findCharFrom : List Char → Char → Nat → Option Nat
  | [], _, _ => none
  | x :: t, c, i => if x = c then some i else findCharFrom t c (i + 1)

/-- Match `\s*>` at the head, returning the matched length. -/
def wsThenGt (cs : List Char) : Option Nat :=
  let n := (cs.takeWhile (fun c => c.isWhitespace)).length
  match cs.drop n with
  | c :: _ => if c = '>' then some (n + 1) else none
  | [] => none

/-- First position (and matched length) of `</script\s*>`, the lazy
    continuation of the extraction regex. -/
def findCloseTag : List Char → Nat → Option (Nat × Nat)
  | [], _ => none
  | c :: t, i =>
      if "</script".data.isPrefixOf (lowerChars (c :: t)) then
        match wsThenGt ((c :: t).drop 8) with
        | some m => some (i, 8 + m)
        | none => findCloseTag t (i + 1)
      else findCloseTag t (i + 1)

/-- The extraction result of `extractVueScript`. -/
structure VueScript where
  openTag : String
  content : String
  contentStart : Nat
  contentEnd : Nat
deriving DecidableEq, Repr

/-- Translation of `extractVueScript` (src/index.ts lines 265-289): the
    first `<script\b[^>]*>([\s\S]*?)<\/script\s*>` match (case
    insensitive), with the content offset recovered — as in the source —
    by `full.indexOf(content)`. -/
def extractVueScript (sourceCode : String) : Option VueScript :=
  let cs := sourceCode.data
  match findScriptOpen cs 0 with
  | none => none
  | some fullStart =>
      match findCharFrom (cs.drop (fullStart + 7)) '>' 0 with
      | none => none
      | some gtRel =>
          let contentStart0 := fullStart + 7 + gtRel + 1
          match findCloseTag (cs.drop contentStart0) 0 with
          | none => none
          | some (closeRel, closeLen) =>
              let fullEnd := contentStart0 + closeRel + closeLen
              let full := String.mk ((cs.take fullEnd).drop fullStart)
              let content := String.mk ((cs.drop contentStart0).take closeRel)
              match idxOf full content with
              | none => none
              | some contentOffset =>
                  some { openTag := takeChars full contentOffset
                         content := content
                         contentStart := fullStart + contentOffset
                         contentEnd := fullStart + contentOffset + content.length }

/-! ### transformCode and the entry points -/

/-- `path.extname(p)`: the suffix from the last dot. -/
def afterLastDot : List Char → Option (List Char)
  | [] => none
  | c :: t =>
      match afterLastDot t with
      | some r => some r
      | none => if c = '.' then some t else none

/-- `path.extname` (fragment: paths without trailing dots corner cases). -/
def extname (p : String) : String :=
  match afterLastDot p.data with
  | some r => "." ++ String.mk r
  | none => ""

/-- Translation of `transformCode` (src/index.ts lines 132-217).  The
    checker built by `createTypeChecker` is the external oracle parameter
    (`none` models construction failure); `net` models the sequential AI
    request outcomes.  For a `.vue` unit the script block is extracted
    (unchanged unit when there is none), the parsed unit is collected and,
    when the comment map is non-empty, transformed, re-printed, adjusted
    for edge newlines, and spliced back between the saved wrapper slices;
    otherwise the printed transformed unit is the result.  (The script
    kind resolution of the source selects the external parser dialect and
    has no counterpart in the modelled fragment.) -/
def transformCode (filePath : String) (originalCode : String) (config : NormalizedConfig)
    (checker : Option Checker) (net : Nat → HttpOutcome) : String :=
  let ext := strLower (extname filePath)
  if ext = ".vue" then
    match extractVueScript originalCode with
    | none => originalCode
    | some vueScript =>
        let items := parseScript vueScript.content
        let targets := collectTargets items checker
        let commentMap := buildCommentMap targets config checker net
        if commentMap.isEmpty then originalCode
        else
          let transformedScriptCode := printItems (annotateKeyed commentMap (itemsWithKeys 0 items))
          let originalScriptContent := sliceChars originalCode vueScript.contentStart vueScript.contentEnd
          let transformedScriptCode :=
            if strStarts originalScriptContent "\n" ∧ ¬ strStarts transformedScriptCode "\n"
            then "\n" ++ transformedScriptCode else transformedScriptCode
          let transformedScriptCode :=
            if strEnds originalScriptContent "\n" ∧ ¬ strEnds transformedScriptCode "\n"
            then transformedScriptCode ++ "\n" else transformedScriptCode
          takeChars originalCode vueScript.contentStart ++ transformedScriptCode ++
            dropChars originalCode vueScript.contentEnd
  else
    let items := parseScript originalCode
    let targets := collectTargets items checker
    let commentMap := buildCommentMap targets config checker net
    if commentMap.isEmpty then originalCode
    else printItems (annotateKeyed commentMap (itemsWithKeys 0 items))

/-- Translation of `generateJSDocFromCode` (src/index.ts lines 123-130). -/
def generateJSDocFromCode (filePath code : String) (fileConfig : JSDocBuilderConfigPart)
    (options : GenerateJSDocOptions) (env : Env) (checker : Option Checker)
    (net : Nat → HttpOutcome) : String :=
  transformCode filePath code (loadConfig fileConfig options env) checker net

/-- Translation of `generateJSDoc` (src/index.ts lines 111-121), with the
    file read external: given the file content, the returned value is the
    write performed (`none`: the content is unchanged and `writeFileSync`
    is not called). -/
def generateJSDoc (filePath sourceCode : String) (fileConfig : JSDocBuilderConfigPart)
    (options : GenerateJSDocOptions) (env : Env) (checker : Option Checker)
    (net : Nat → HttpOutcome) : Option String :=
  let updatedCode := generateJSDocFromCode filePath sourceCode fileConfig options env checker net
  if updatedCode ≠ sourceCode then some updatedCode else none

/-! ### Specification-side reference definitions

These definitions follow the wording of the specification claims (not the
source); the theorems below compare them with the source translations. -/

mutual

/-- From the claim text of C7: the return statements found directly in
    this function's body — descending through non-function-like statement
    structure, never into a nested function-like subtree. -/
def specImmediateReturnsStmt : Stmt → List (Option Expr)
  | .ret e => [e]
  | .block ss => specImmediateReturnsStmts ss
  | .exprStmt _ => []
  | .nestedFunction _ _ => []
  | .otherStmt => []

/-- The immediate returns of a statement list, in order. -/
def specImmediateReturnsStmts : List Stmt → List (Option Expr)
  | [] => []
  | s :: t => specImmediateReturnsStmt s ++ specImmediateReturnsStmts t

end

/-- Distinct values in first-seen order (reference formulation with an
    explicit seen set). -/
def specDistinctAux (seen : List String) : List String → List String
  | [] => []
  | x :: rest =>
      if x ∈ seen then specDistinctAux seen rest
      else x :: specDistinctAux (x :: seen) rest

/-- Distinct values of a list in first-seen order. -/
def specDistinct (l : List String) : List String := specDistinctAux [] l

/-- The contribution of one return statement: `void` when expressionless,
    else the inferred type of its expression. -/
def retTypeOfExpr (env : List (String × String)) : Option Expr → String
  | none => "void"
  | some e => inferExpressionType e env

/-- From the claim text of C7: collect the inferred type of every return
    statement directly in the body (an expressionless return contributes
    `void`); if no returns were found the result is `void`; otherwise
    discard `void` from the collected set; if nothing remains the result
    is `void`, else the distinct remaining types joined with `|` in
    first-seen order. -/
def specBlockReturnType (ss : List Stmt) (env : List (String × String)) : String :=
  let collected := (specImmediateReturnsStmts ss).map (retTypeOfExpr env)
  match collected with
  | [] => "void"
  | _ =>
      let remaining := (specDistinct collected).filter (fun t => t ≠ "void")
      match remaining with
      | [] => "void"
      | _ => strJoin " | " remaining

/-- From the claim text of C1: the tree-level effect of the transform on
    one item — each documentable declaration without a leading
    documentation comment gains the synthesized comment (built, with AI
    disabled, from the deterministic fallback description), and every
    other item is untouched. -/
def directAnnotate (config : NormalizedConfig) (checker : Option Checker) (it : Item) : Item :=
  match it with
  | .fn none name f v =>
      attachComment (.fn none name f v)
        (createJSDocComment name (paramPairsAux checker 0 f.params)
          (inferReturnTypeText f checker)
          (name ++ " function") config)
  | _ => it

/-- The synthesized comment of one target when AI is disabled (the
    deterministic fallback description). -/
def disabledComment (config : NormalizedConfig) (checker : Option Checker)
    (t : ParsedTarget) : String :=
  createJSDocComment t.functionName (paramPairsAux checker 0 t.parameters)
    t.returnTypeText (t.functionName ++ " function") config

/-- The map entries `buildCommentMap` produces from keyed items when AI is
    disabled, for the lookup analysis of the transformer. -/
def targetEntries (config : NormalizedConfig) (checker : Option Checker) :
    List (NodeKey × Item) → List (NodeKey × String)
  | [] => []
  | (k, it) :: rest =>
      (match it with
       | .fn none name f v =>
           [(k, disabledComment config checker
               { key := k, functionName := name, parameters := f.params,
                 returnTypeText := inferReturnTypeText f checker,
                 sourceSnippet := targetSnippet name f v })]
       | _ => []) ++ targetEntries config checker rest

/-- From the claim text of C8: the documentable, undocumented declarations
    the pipeline collects for a unit — none when a container unit has no
    script block. -/
def pipelineTargets (filePath originalCode : String) (checker : Option Checker) :
    List ParsedTarget :=
  if strLower (extname filePath) = ".vue" then
    match extractVueScript originalCode with
    | none => []
    | some v => collectTargets (parseScript v.content) checker
  else collectTargets (parseScript originalCode) checker

/-- From the claim text of C9 (OpenAI-style provider): the request failed —
    timeout, transport error, HTTP status at least 400 (or missing),
    unparsable body, or missing/empty content field. -/
def aiRequestFails (outcome : HttpOutcome) : Bool :=
  match outcome with
  | .timeout => true
  | .transportError => true
  | .response status body =>
      if status = 0 ∨ 400 ≤ status then true
      else
        match body with
        | none => true
        | some j =>
            match openAIContent j with
            | some (.str c) => strTrim (collapseNewlines c) = ""
            | _ => true

/-- From the claim text of C9 (Gemini-style provider): the request failed. -/
def geminiRequestFails (outcome : HttpOutcome) : Bool :=
  match outcome with
  | .timeout => true
  | .transportError => true
  | .response status body =>
      if status = 0 ∨ 400 ≤ status then true
      else
        match body with
        | none => true
        | some j =>
            match geminiParts j with
            | some (.arr parts) =>
                strTrim (strJoin " " (parts.map geminiPartText)) = ""
            | _ => true

/-- From the claim text of C10: the normalized configuration is fully
    populated — a known provider, a positive timeout, non-empty model,
    base URL and prompt template, and a usable credential whenever AI is
    enabled. -/
def configInvariant (c : NormalizedConfig) : Prop :=
  (c.ai.provider = "openai" ∨ c.ai.provider = "gemini") ∧
  0 < c.ai.timeoutMs ∧
  c.ai.model ≠ "" ∧ c.ai.baseUrl ≠ "" ∧ c.ai.promptTemplate ≠ "" ∧
  (c.ai.enabled = true → ∃ k, c.ai.apiKey = some k ∧ k ≠ "")

/-! ### Concrete units used by the closed theorems -/

/-- A network that never answers usefully (AI is disabled in the closed
    theorems that use it, so it is never consulted). -/
def noResponse : Nat → HttpOutcome := fun _ => HttpOutcome.transportError

/-- A two-declaration script unit with CRLF line terminators. -/
def crlfUnit : String := "function f() { return 1; }\r\nfunction g() { return 2; }"

/-- A container unit whose script content also occurs, verbatim, inside an
    attribute of the script open tag. -/
def vueAttrUnit : String :=
  "<script a=\"function f() { return 1; }\">function f() { return 1; }</script>"

/-- A second container unit of the same shape (for the container
    round-trip claim). -/
def vueAttrUnitG : String :=
  "<script a=\"function g() { return 2; }\">function g() { return 2; }</script>"

/-- A well-behaved container unit: wrapper, then a script block whose
    content starts and ends with a newline. -/
def vueCleanUnit : String :=
  "<template>x</template><script>\nfunction h() { return 3; }\n</script>"

/-- The extraction result of `vueCleanUnit` (offsets correct: the content
    first occurs at its true position). -/
def vueCleanScript : VueScript :=
  { openTag := "<script>"
    content := "\nfunction h() { return 3; }\n"
    contentStart := 30
    contentEnd := 58 }

/-- A parameter with an explicit annotation whose text the checker prints
    differently (`ts.typeToString` normalizes `Array<string>` to
    `string[]`). -/
def arrayAnnotatedParam : Param := .mk (some "a") (some "Array<string>") none false

/-- A checker whose printed form differs from the annotation text, as the
    real checker does on `Array<string>`. -/
def normalizingChecker : Checker :=
  { signatureReturnText := fun _ => some "string[]"
    paramTypeText := fun _ => "string[]" }

/-- An async function declaration without a body (overload signature). -/
def asyncNoBody : Fn := { isAsync := true, params := [], retAnn := none, body := none }

/-- An async function whose block body contains no return statement. -/
def asyncNoReturns : Fn :=
  { isAsync := true, params := [], retAnn := none,
    body := some (.block [.exprStmt .otherExpr]) }

/-- A parameter `a: number`. -/
def numberParam : Param := .mk (some "a") (some "number") none false

/-- A parameter `b = a`, whose default value names the previous parameter. -/
def dfltIdentParam : Param := .mk (some "b") none (some (.ident "a")) false

/-- The description context of a function named `sum`. -/
def sumCtx : AIDescriptionContext :=
  { functionName := "sum", returnType := "number", parameters := [],
    sourceSnippet := "function sum(a, b) { return a + b; }" }

/-- The default configuration with AI enabled and a credential, as after
    config resolution with an api key present. -/
def enabledCfg : NormalizedConfig :=
  { DEFAULT_CONFIG with ai := { DEFAULT_CONFIG.ai with enabled := true, apiKey := some "k" } }

/-- A block body exercising the C7 walk: an immediate return, returns
    inside a nested block (one expressionless), a nested function-like
    subtree with its own return, and a non-return statement. -/
def c7Body : List Stmt :=
  [.ret (some (.numLit "1")),
   .block [.ret (some (.strLit "s")), .ret none],
   .nestedFunction [] [.ret (some (.boolLit true))],
   .exprStmt .otherExpr]

/-- The function declaration around `c7Body`. -/
def c7Fn : Fn := { isAsync := false, params := [], retAnn := none, body := some (.block c7Body) }

/-- A unit whose only declaration is already documented. -/
def docUnit : String := "/** d */
function f() { return 1; }"

/-! ### Helper lemmas -/

theorem data_append (a b : String) : (a ++ b).data = a.data ++ b.data := by
  cases a; cases b; rfl

theorem isPrefixOf_append (l m : List Char) : l.isPrefixOf (l ++ m) = true := by
  induction l with
  | nil => simp [List.isPrefixOf]
  | cons c t ih => simp [List.isPrefixOf, ih]

theorem strStarts_append (p x : String) : strStarts (p ++ x) p = true := by
  simp [strStarts, data_append, isPrefixOf_append]

theorem strEnds_append (x s : String) : strEnds (x ++ s) s = true := by
  simp [strEnds, data_append, isPrefixOf_append]

theorem isPrefixOf_append_of (p s m : List Char) (h : p.isPrefixOf s = true) :
    p.isPrefixOf (s ++ m) = true := by
  induction p generalizing s with
  | nil => simp [List.isPrefixOf]
  | cons c t ih =>
      cases s with
      | nil => simp [List.isPrefixOf] at h
      | cons b bs =>
          simp only [List.isPrefixOf, Bool.and_eq_true, beq_iff_eq] at h
          simp [List.isPrefixOf, h.1, ih bs h.2]

theorem strStarts_append_of (s x p : String) (h : strStarts s p = true) :
    strStarts (s ++ x) p = true := by
  simpa [strStarts, data_append] using isPrefixOf_append_of p.data s.data x.data h

theorem finalize_not_async (t : String) (fn : Fn) (h : fn.isAsync = false) :
    finalizeReturnType t fn = t := by
  simp [finalizeReturnType, h]

theorem foldl_addToSet_ne_nil (l : List String) : ∀ acc, acc ≠ [] → l.foldl addToSet acc ≠ [] := by
  induction l with
  | nil => intro acc h; simpa using h
  | cons x rest ih =>
      intro acc h
      simp only [List.foldl]
      apply ih
      unfold addToSet
      split
      · exact h
      · simp

theorem dedupFirstSeen_ne_nil (x : String) (l : List String) : dedupFirstSeen (x :: l) ≠ [] := by
  unfold dedupFirstSeen
  simp only [List.foldl]
  apply foldl_addToSet_ne_nil
  simp [addToSet]

theorem finalize_async_starts (t : String) (fn : Fn) (h : fn.isAsync = true) :
    strStarts (finalizeReturnType t fn) "Promise<" = true := by
  unfold finalizeReturnType
  rw [h]
  simp only [Bool.not_true, Bool.false_eq_true, if_false]
  split
  · assumption
  · exact strStarts_append "Promise<" (t ++ ">")

/-! ### C4 — annotation precedence -/

/-- C4, counterexample: the source consults the semantic oracle before the
    explicit annotation, for parameters and returns alike, so an oracle
    whose printed form differs from the annotation text (as
    `ts.typeToString` does on `Array<string>`, printed `string[]`)
    overrides the annotation — contradicting the claim that the
    annotation's literal text is always used verbatim. -/
theorem C4_counterexample :
    inferParameterType arrayAnnotatedParam (some normalizingChecker) = "string[]" ∧
    inferReturnTypeText
      { isAsync := false, params := [], retAnn := some "Array<string>",
        body := some (.block []) } (some normalizingChecker) = "string[]" ∧
    ("string[]" : String) ≠ "Array<string>" := by
  refine ⟨by decide, by decide, by decide⟩

/-- C4, amended: when the semantic oracle yields no usable answer, the
    explicit annotation's literal text is used verbatim for parameters and
    for return positions; in particular, with no oracle, the annotated
    `add`-style declaration yields parameter types exactly `number`,
    `number` and return type exactly `number` regardless of body content.
    (The oracle, when usable, takes precedence — see the counterexample.) -/
theorem C4_amended :
    (∀ (p : Param) (ck : Option Checker) (t : String),
        oracleParamText p ck = none → p.typeAnn = some t →
        inferParameterType p ck = t) ∧
    (∀ (fn : Fn) (ck : Option Checker) (t : String),
        oracleReturnText fn ck = none → fn.retAnn = some t →
        inferReturnTypeText fn ck = t) ∧
    (∀ (body : Option FnBody),
        inferReturnTypeText
          { isAsync := false,
            params := [numberParam, Param.mk (some "b") (some "number") none false],
            retAnn := some "number", body := body } none = "number" ∧
        paramPairsAux none 0 [numberParam, Param.mk (some "b") (some "number") none false] =
          [("a", "number"), ("b", "number")]) := by
  refine ⟨?_, ?_, ?_⟩
  · intro p ck t horacle hann
    unfold inferParameterType
    rw [horacle, hann]
  · intro fn ck t horacle hann
    unfold inferReturnTypeText
    rw [horacle, hann]
  · intro body
    exact ⟨by unfold inferReturnTypeText oracleReturnText; rfl, by decide⟩

/-- C4, witness for the amended theorem. -/
theorem C4_witness :
    inferParameterType (Param.mk (some "x") (some "Foo") none false) none = "Foo" ∧
    inferReturnTypeText
      { isAsync := false, params := [], retAnn := some "Foo", body := none } none = "Foo" :=
  ⟨C4_amended.1 (Param.mk (some "x") (some "Foo") none false) none "Foo" rfl rfl,
   C4_amended.2.1 { isAsync := false, params := [], retAnn := some "Foo", body := none }
     none "Foo" rfl rfl⟩

/-! ### C5 — async Promise wrapping -/

/-- C5, counterexample: for an async function the claim requires the
    Promise wrapping also when the function has no body or its block body
    contains no return statement; the source returns the bare `"void"` on
    both of those paths (they exit before `finalizeReturnType`). -/
theorem C5_counterexample :
    inferReturnTypeText asyncNoBody none = "void" ∧
    inferReturnTypeText asyncNoReturns none = "void" ∧
    ("void" : String) ≠ "Promise<void>" := by
  refine ⟨by decide, by decide, by decide⟩

/-- C5, amended: for an async function whose return type is produced by
    syntactic inference (no usable oracle, no annotation), the result is
    wrapped in `Promise<...>` (or already begins with it) exactly on the
    paths that reach `finalizeReturnType`: an expression body, or a block
    body whose walk collects at least one return statement.  The
    missing-body and no-returns-found paths yield the bare `"void"`. -/
theorem C5_amended : ∀ (fn : Fn) (ck : Option Checker),
    fn.isAsync = true → fn.retAnn = none → oracleReturnText fn ck = none →
    ((fn.body = none → inferReturnTypeText fn ck = "void") ∧
     (∀ ss, fn.body = some (.block ss) →
        collectReturnsStmts (getParameterTypeMap fn.params ck) ss = [] →
        inferReturnTypeText fn ck = "void") ∧
     (∀ ss, fn.body = some (.block ss) →
        collectReturnsStmts (getParameterTypeMap fn.params ck) ss ≠ [] →
        strStarts (inferReturnTypeText fn ck) "Promise<" = true) ∧
     (∀ e, fn.body = some (.exprBody e) →
        strStarts (inferReturnTypeText fn ck) "Promise<" = true)) := by
  intro fn ck hasync hann horacle
  refine ⟨?_, ?_, ?_, ?_⟩
  · intro hbody
    unfold inferReturnTypeText
    rw [horacle, hann, hbody]
  · intro ss hbody hcol
    unfold inferReturnTypeText
    rw [horacle, hann, hbody]
    dsimp only
    rw [hcol]
    rfl
  · intro ss hbody hcol
    unfold inferReturnTypeText
    rw [horacle, hann, hbody]
    dsimp only
    split
    · rename_i hemp
      rw [List.isEmpty_iff] at hemp
      cases hc : collectReturnsStmts (getParameterTypeMap fn.params ck) ss with
      | nil => exact absurd hc hcol
      | cons a l =>
          rw [hc] at hemp
          exact absurd hemp (dedupFirstSeen_ne_nil a l)
    · split
      · exact finalize_async_starts "void" fn hasync
      · exact finalize_async_starts _ fn hasync
  · intro e hbody
    unfold inferReturnTypeText
    rw [horacle, hann, hbody]
    exact finalize_async_starts _ fn hasync

/-! ### C6 — default-value inference environment -/

/-- C6, counterexample: parameter `b = a` in the list `(a: number, b = a)`
    — the claim requires the identifier default to resolve to the type of
    the same-named parameter `a` (`number`, as the parameter map records),
    but the source passes `new Map()` to the default-value inference, so
    the result is `any`. -/
theorem C6_counterexample :
    inferParameterType dfltIdentParam none = "any" ∧
    inferParameterType numberParam none = "number" ∧
    envGet (getParameterTypeMap [numberParam, dfltIdentParam] none) "a" = some "number" ∧
    ("any" : String) ≠ "number" := by
  refine ⟨by decide, by decide, by decide, by decide⟩

/-- C6, amended: when a parameter's type is derived from its default-value
    initializer, the expression inference rules are applied against an
    empty parameter-type environment (`new Map()`), so an identifier in
    the initializer always yields `any`, whatever the enclosing parameter
    list declares.  (The same-named-parameter resolution applies only to
    return-expression inference, where `getParameterTypeMap` is passed.) -/
theorem C6_amended : ∀ (p : Param) (ck : Option Checker) (e : Expr),
    oracleParamText p ck = none → p.typeAnn = none → p.dflt = some e →
    (inferParameterType p ck = inferExpressionType e [] ∧
     ∀ name, e = .ident name → inferParameterType p ck = "any") := by
  intro p ck e horacle hann hdflt
  have hbase : inferParameterType p ck = inferExpressionType e [] := by
    unfold inferParameterType
    rw [horacle, hann, hdflt]
  refine ⟨hbase, ?_⟩
  intro name hident
  rw [hbase, hident]
  rfl

/-- C6, witness for the amended theorem. -/
theorem C6_witness : inferParameterType dfltIdentParam none = "any" :=
  (C6_amended dfltIdentParam none (.ident "a") rfl rfl rfl).2 "a" rfl

/-! ### C7 — block-body return collection -/

mutual

theorem collectReturnsStmt_eq (env : List (String × String)) (s : Stmt) :
    collectReturnsStmt env s = (specImmediateReturnsStmt s).map (retTypeOfExpr env) := by
  cases s with
  | ret e => cases e <;> simp [collectReturnsStmt, specImmediateReturnsStmt, retTypeOfExpr]
  | block ss =>
      simpa [collectReturnsStmt, specImmediateReturnsStmt] using collectReturnsStmts_eq env ss
  | exprStmt e => simp [collectReturnsStmt, specImmediateReturnsStmt]
  | nestedFunction ps b => simp [collectReturnsStmt, specImmediateReturnsStmt]
  | otherStmt => simp [collectReturnsStmt, specImmediateReturnsStmt]

theorem collectReturnsStmts_eq (env : List (String × String)) (ss : List Stmt) :
    collectReturnsStmts env ss = (specImmediateReturnsStmts ss).map (retTypeOfExpr env) := by
  cases ss with
  | nil => simp [collectReturnsStmts, specImmediateReturnsStmts]
  | cons s t =>
      simp [collectReturnsStmts, specImmediateReturnsStmts,
        collectReturnsStmt_eq env s, collectReturnsStmts_eq env t]

end

theorem foldl_addToSet_eq (l : List String) : ∀ (acc seen : List String),
    (∀ x, x ∈ acc ↔ x ∈ seen) →
    l.foldl addToSet acc = acc ++ specDistinctAux seen l := by
  induction l with
  | nil => intro acc seen h; simp [specDistinctAux]
  | cons x rest ih =>
      intro acc seen h
      simp only [List.foldl, specDistinctAux]
      by_cases hx : x ∈ seen
      · rw [if_pos hx]
        have hxa : x ∈ acc := (h x).2 hx
        have hset : addToSet acc x = acc := by simp [addToSet, hxa]
        rw [hset]
        exact ih acc seen h
      · rw [if_neg hx]
        have hxa : x ∉ acc := fun hc => hx ((h x).1 hc)
        have hset : addToSet acc x = acc ++ [x] := by simp [addToSet, hxa]
        rw [hset, ih (acc ++ [x]) (x :: seen)
          (by intro y; simp [List.mem_append, List.mem_cons, h y]; tauto)]
        simp

theorem dedupFirstSeen_eq (l : List String) : dedupFirstSeen l = specDistinct l := by
  have h := foldl_addToSet_eq l [] [] (by simp)
  simpa [dedupFirstSeen, specDistinct] using h

/-- C7: for a block-bodied, non-async function with no annotation and no
    usable oracle result, the source's return-type inference computes
    exactly the claim's description: the types of the immediate returns
    (nested function-like subtrees excluded, expressionless returns
    contributing `void`), `void` when none were found, else the distinct
    collected types with `void` discarded, joined with `|` in first-seen
    order (`void` when nothing remains). -/
theorem C7_theorem : ∀ (fn : Fn) (ck : Option Checker) (ss : List Stmt),
    fn.isAsync = false → fn.retAnn = none → oracleReturnText fn ck = none →
    fn.body = some (.block ss) →
    inferReturnTypeText fn ck = specBlockReturnType ss (getParameterTypeMap fn.params ck) := by
  intro fn ck ss hasync hann horacle hbody
  unfold inferReturnTypeText
  rw [horacle, hann, hbody]
  dsimp only
  rw [collectReturnsStmts_eq, dedupFirstSeen_eq]
  unfold specBlockReturnType
  dsimp only
  cases hcol : (specImmediateReturnsStmts ss).map (retTypeOfExpr (getParameterTypeMap fn.params ck)) with
  | nil => simp [specDistinct, specDistinctAux]
  | cons a l =>
      have hne : specDistinct (a :: l) ≠ [] := by
        rw [← dedupFirstSeen_eq]
        exact dedupFirstSeen_ne_nil a l
      have hemp : (specDistinct (a :: l)).isEmpty = false := by
        cases hD : specDistinct (a :: l) with
        | nil => exact absurd hD hne
        | cons _ _ => rfl
      simp only [hemp, Bool.false_eq_true, if_false]
      cases hr : (specDistinct (a :: l)).filter (fun t => t ≠ "void") with
      | nil => simp [finalize_not_async _ fn hasync]
      | cons b bl => simp [finalize_not_async _ fn hasync]

/-- C7, witness for the theorem on a concrete function: an immediate
    return of a number, a nested block with a string return and an
    expressionless return, and a nested function-like subtree whose
    boolean return is not collected. -/
theorem C7_witness :
    inferReturnTypeText c7Fn none = specBlockReturnType c7Body (getParameterTypeMap c7Fn.params none) ∧
    inferReturnTypeText c7Fn none = "number | string" :=
  ⟨C7_theorem c7Fn none c7Body rfl rfl rfl rfl, by decide⟩

/-! ### C9 — AI failure handling -/

theorem openai_fail (prompt : String) (aiConfig : AIN) (outcome : HttpOutcome)
    (hfail : aiRequestFails outcome = true) :
    requestDescriptionFromOpenAI prompt aiConfig outcome = none ∨
    requestDescriptionFromOpenAI prompt aiConfig outcome = some "" := by
  unfold requestDescriptionFromOpenAI postJson
  cases outcome with
  | timeout => left; rfl
  | transportError => left; rfl
  | response status body =>
      unfold aiRequestFails at hfail
      dsimp only at hfail ⊢
      by_cases hst : (status = 0 ∨ 400 ≤ status)
      · rw [if_pos hst]
        left; rfl
      · rw [if_neg hst] at hfail ⊢
        cases body with
        | none => left; rfl
        | some j =>
            dsimp only at hfail ⊢
            cases hx : openAIContent j with
            | none => left; rfl
            | some v =>
                rw [hx] at hfail
                cases v with
                | str c =>
                    right
                    have hc : strTrim (collapseNewlines c) = "" := by simpa using hfail
                    dsimp only
                    rw [hc]
                | num n => left; rfl
                | boolJ b => left; rfl
                | nullJ => left; rfl
                | arr xs => left; rfl
                | obj fs => left; rfl

theorem gemini_fail (prompt : String) (aiConfig : AIN) (outcome : HttpOutcome)
    (hfail : geminiRequestFails outcome = true) :
    requestDescriptionFromGemini prompt aiConfig outcome = none := by
  unfold requestDescriptionFromGemini postJson
  split
  · rfl
  · cases outcome with
    | timeout => rfl
    | transportError => rfl
    | response status body =>
        unfold geminiRequestFails at hfail
        dsimp only at hfail ⊢
        by_cases hst : (status = 0 ∨ 400 ≤ status)
        · rw [if_pos hst]
        · rw [if_neg hst] at hfail ⊢
          cases body with
          | none => rfl
          | some j =>
              dsimp only at hfail ⊢
              cases hx : geminiParts j with
              | none => rfl
              | some v =>
                  rw [hx] at hfail
                  cases v with
                  | str c => rfl
                  | num n => rfl
                  | boolJ b => rfl
                  | nullJ => rfl
                  | arr xs =>
                      have hc : strTrim (strJoin " " (xs.map geminiPartText)) = "" := by
                        simpa using hfail
                      simp [hc]
                  | obj fs => rfl

theorem requestAI_fail_openai (ctx : AIDescriptionContext) (aiConfig : AIN)
    (outcome : HttpOutcome) (hprov : aiConfig.provider = "openai")
    (hfail : aiRequestFails outcome = true) :
    requestDescriptionFromAI ctx aiConfig outcome = none ∨
    requestDescriptionFromAI ctx aiConfig outcome = some "" := by
  unfold requestDescriptionFromAI
  split
  · left; rfl
  · rw [hprov]
    rw [if_neg (by decide)]
    exact openai_fail _ aiConfig outcome hfail

theorem requestAI_fail_gemini (ctx : AIDescriptionContext) (aiConfig : AIN)
    (outcome : HttpOutcome) (hprov : aiConfig.provider = "gemini")
    (hfail : geminiRequestFails outcome = true) :
    requestDescriptionFromAI ctx aiConfig outcome = none := by
  unfold requestDescriptionFromAI
  split
  · rfl
  · exact gemini_fail _ aiConfig outcome hfail

theorem createDescription_fallback_of_request (ctx : AIDescriptionContext)
    (cfg : NormalizedConfig) (outcome : HttpOutcome)
    (h : requestDescriptionFromAI ctx cfg.ai outcome = none ∨
         requestDescriptionFromAI ctx cfg.ai outcome = some "") :
    (createDescription ctx cfg outcome).1 = ctx.functionName ++ " function" := by
  unfold createDescription
  split
  · rfl
  · rcases h with h | h <;> rw [h] <;> simp

theorem buildCommentMapAux_length (cfg : NormalizedConfig) (ck : Option Checker)
    (net : Nat → HttpOutcome) : ∀ (i : Nat) (ts : List ParsedTarget),
    (buildCommentMapAux cfg ck net i ts).length = ts.length := by
  intro i ts
  induction ts generalizing i with
  | nil => rfl
  | cons t rest ih => simp [buildCommentMapAux, ih]

/-- C9, counterexample: on a failed request (HTTP 500, no parsable body)
    with AI enabled and a credential configured, the deterministic
    fallback is substituted — but the failure is not reported: the source
    contains no console statement on the failure path, so the console
    output of the call is empty, contradicting the claim's "reported as a
    non-fatal warning". -/
theorem C9_counterexample :
    (createDescription sumCtx enabledCfg (HttpOutcome.response 500 none)).2 = [] ∧
    (createDescription sumCtx enabledCfg (HttpOutcome.response 500 none)).1 = "sum function" := by
  refine ⟨by decide, by decide⟩

/-- C9, amended: for every target whose AI description request fails
    (timeout, transport error, HTTP status at least 400, unparsable body,
    or missing/empty content — on either provider), the deterministic
    fallback description `<name> function` is substituted and the run
    continues to the next target (every target still receives a comment
    map entry); the failure is swallowed silently — no warning is logged
    (the call emits no console output on any path). -/
theorem C9_amended :
    (∀ (ctx : AIDescriptionContext) (cfg : NormalizedConfig) (outcome : HttpOutcome),
        cfg.ai.provider = "openai" → aiRequestFails outcome = true →
        (createDescription ctx cfg outcome).1 = ctx.functionName ++ " function") ∧
    (∀ (ctx : AIDescriptionContext) (cfg : NormalizedConfig) (outcome : HttpOutcome),
        cfg.ai.provider = "gemini" → geminiRequestFails outcome = true →
        (createDescription ctx cfg outcome).1 = ctx.functionName ++ " function") ∧
    (∀ (ctx : AIDescriptionContext) (cfg : NormalizedConfig) (outcome : HttpOutcome),
        (createDescription ctx cfg outcome).2 = ([] : List String)) ∧
    (∀ (targets : List ParsedTarget) (cfg : NormalizedConfig) (ck : Option Checker)
        (net : Nat → HttpOutcome),
        (buildCommentMap targets cfg ck net).length = targets.length) := by
  refine ⟨?_, ?_, ?_, ?_⟩
  · intro ctx cfg outcome hprov hfail
    exact createDescription_fallback_of_request ctx cfg outcome
      (requestAI_fail_openai ctx cfg.ai outcome hprov hfail)
  · intro ctx cfg outcome hprov hfail
    exact createDescription_fallback_of_request ctx cfg outcome
      (Or.inl (requestAI_fail_gemini ctx cfg.ai outcome hprov hfail))
  · intro ctx cfg outcome
    unfold createDescription
    split
    · rfl
    · cases requestDescriptionFromAI ctx cfg.ai outcome with
      | none => rfl
      | some d =>
          dsimp only
          split <;> rfl
  · intro targets cfg ck net
    exact buildCommentMapAux_length cfg ck net 0 targets

/-- C9, witness for the amended theorem. -/
theorem C9_witness :
    (createDescription sumCtx enabledCfg HttpOutcome.timeout).1 =
      sumCtx.functionName ++ " function" ∧
    (buildCommentMap [] enabledCfg none noResponse).length = 0 :=
  ⟨C9_amended.1 sumCtx enabledCfg HttpOutcome.timeout rfl rfl,
   C9_amended.2.2.2 [] enabledCfg none noResponse⟩

/-! ### C10 — normalized configuration invariants -/

theorem strTruthy_iff (s : String) : strTruthy s = true ↔ s ≠ "" := by
  simp [strTruthy]

theorem optTruthy_iff (o : Option String) :
    optTruthy o = true ↔ ∃ k, o = some k ∧ k ≠ "" := by
  cases o <;> simp [optTruthy]

theorem normalizeProvider_cases (p : String) :
    normalizeProvider p = "openai" ∨ normalizeProvider p = "gemini" := by
  unfold normalizeProvider
  split
  · right; rfl
  · left; rfl

theorem applyProviderDefaults_spec (ai : AIN) :
    (applyProviderDefaults ai).provider = ai.provider ∧
    (applyProviderDefaults ai).enabled = ai.enabled ∧
    (applyProviderDefaults ai).apiKey = ai.apiKey ∧
    (applyProviderDefaults ai).model ≠ "" ∧
    (applyProviderDefaults ai).baseUrl ≠ "" ∧
    (applyProviderDefaults ai).promptTemplate ≠ "" ∧
    0 < (applyProviderDefaults ai).timeoutMs := by
  unfold applyProviderDefaults
  dsimp only
  split_ifs <;>
    refine ⟨rfl, rfl, rfl, ?_, ?_, ?_, ?_⟩ <;>
    simp_all [strTruthy_iff, OPENAI_AI_DEFAULTS, GEMINI_AI_DEFAULTS,
      GEMINI_AI_DEFAULTS, not_or] <;>
    first
      | decide
      | omega
      | assumption

/-- C10: for every combination of caller options, config-file content and
    environment, config resolution returns a fully-populated normalized
    configuration: a provider among the two known values, a strictly
    positive timeout, non-empty model, base URL and prompt template, and —
    whenever AI remains enabled — a non-empty api key. -/
theorem C10_theorem : ∀ (fileConfig : JSDocBuilderConfigPart)
    (options : GenerateJSDocOptions) (env : Env),
    configInvariant (loadConfig fileConfig options env) := by
  intro fc opts env
  unfold loadConfig configInvariant
  dsimp only
  generalize mergeDeep _ = m0
  obtain ⟨hprov, hen, hkey, hmodel, hbase, hprompt, htime⟩ :=
    applyProviderDefaults_spec { m0.ai with provider := normalizeProvider m0.ai.provider }
  generalize ha :
    applyProviderDefaults { m0.ai with provider := normalizeProvider m0.ai.provider } = a1 at *
  have hp2 : a1.provider = normalizeProvider m0.ai.provider := hprov
  split_ifs with h1 h2 h2
  · exact ⟨hp2 ▸ normalizeProvider_cases m0.ai.provider, htime, hmodel, hbase, hprompt,
      by intro hc; exact absurd hc (by simp)⟩
  · refine ⟨hp2 ▸ normalizeProvider_cases m0.ai.provider, htime, hmodel, hbase, hprompt, ?_⟩
    intro _
    exact (optTruthy_iff _).1 h1.2
  · exact ⟨hp2 ▸ normalizeProvider_cases m0.ai.provider, htime, hmodel, hbase, hprompt,
      by intro hc; exact absurd hc (by simp)⟩
  · refine ⟨hp2 ▸ normalizeProvider_cases m0.ai.provider, htime, hmodel, hbase, hprompt, ?_⟩
    intro he
    rcases not_and_or.1 h2 with hne | htruthy
    · exact absurd he hne
    · rw [not_not] at htruthy
      exact (optTruthy_iff _).1 htruthy

/-! ### C8 — no-op invariant -/

/-- C8: when a unit contains zero documentable undocumented declarations
    (every candidate already documented, none exist, or a container unit
    without a script block), the transform's output equals the input
    exactly and the file-writing entry point performs no write. -/
theorem C8_theorem : ∀ (filePath code : String) (cfg : NormalizedConfig)
    (ck : Option Checker) (net : Nat → HttpOutcome)
    (fileConfig : JSDocBuilderConfigPart) (opts : GenerateJSDocOptions) (env : Env),
    pipelineTargets filePath code ck = [] →
    (transformCode filePath code cfg ck net = code ∧
     generateJSDoc filePath code fileConfig opts env ck net = none) := by
  intro fp code cfg ck net fc opts env h
  have htr : ∀ cfg' : NormalizedConfig, transformCode fp code cfg' ck net = code := by
    intro cfg'
    unfold transformCode
    unfold pipelineTargets at h
    by_cases hvue : strLower (extname fp) = ".vue"
    · rw [if_pos hvue]
      rw [if_pos hvue] at h
      cases hex : extractVueScript code with
      | none => rfl
      | some v =>
          rw [hex] at h
          dsimp only at h ⊢
          rw [h]
          rfl
    · rw [if_neg hvue]
      rw [if_neg hvue] at h
      dsimp only
      rw [h]
      rfl
  refine ⟨htr cfg, ?_⟩
  unfold generateJSDoc generateJSDocFromCode
  rw [htr (loadConfig fc opts env)]
  simp

/-- C8, witness: a unit whose only declaration already carries a JSDoc
    comment — the transform returns the input and no write occurs. -/
theorem C8_witness :
    transformCode "w.ts" docUnit DEFAULT_CONFIG none noResponse = docUnit ∧
    generateJSDoc "w.ts" docUnit {} {} {} none noResponse = none :=
  C8_theorem "w.ts" docUnit DEFAULT_CONFIG none noResponse {} {} {} rfl

/-! ### C1 — byte-level frame of the transform -/

theorem strLength_data (s : String) : s.length = s.data.length := by
  cases s; rfl

theorem strLength_append (a b : String) : (a ++ b).length = a.length + b.length := by
  rw [strLength_data, strLength_data, strLength_data, data_append, List.length_append]

theorem strJoin_two (sep a b : String) : strJoin sep [a, b] = a ++ sep ++ b := rfl

theorem itemDocLen_le (it : Item) : itemDocLen it ≤ (itemText it).length := by
  cases it with
  | raw l => simp [itemDocLen]
  | fn doc name f v =>
      cases doc with
      | none => simp [itemDocLen]
      | some d =>
          show d.length + 1 ≤ (itemText (.fn (some d) name f v)).length
          have : itemText (.fn (some d) name f v) = d ++ "\n" ++ fnLineText name f v := by
            unfold itemText itemLines
            exact strJoin_two "\n" d (fnLineText name f v)
          rw [this, strLength_append, strLength_append]
          have h1 : ("\n" : String).length = 1 := rfl
          omega

theorem nodeKey_ne_of_start_lt (a b : NodeKey) (h : a.startPos < b.startPos) : a ≠ b := by
  intro he
  rw [he] at h
  omega

theorem targetEntries_start_ge (cfg : NormalizedConfig) (ck : Option Checker) :
    ∀ (its : List Item) (base : Nat) (e : NodeKey × String),
    e ∈ targetEntries cfg ck (itemsWithKeys base its) → base ≤ e.1.startPos := by
  intro its
  induction its with
  | nil => intro base e he; simp [itemsWithKeys, targetEntries] at he
  | cons it rest ih =>
      intro base e he
      simp only [itemsWithKeys, targetEntries, List.mem_append] at he
      rcases he with he | he
      · cases it with
        | raw l => simp at he
        | fn doc name f v =>
            cases doc with
            | some d => simp at he
            | none =>
                simp only [List.mem_singleton] at he
                rw [he]
                show base ≤ (makeNodeKey base (.fn none name f v)).startPos
                simp [makeNodeKey]
      · have := ih (base + (itemText it).length + 1) e he
        omega

theorem mapLookup_cons_ne (a : NodeKey) (b : String) (m : List (NodeKey × String))
    (k : NodeKey) (h : a ≠ k) : mapLookup ((a, b) :: m) k = mapLookup m k := by
  simp [mapLookup, h]

theorem mapLookup_append_right (m1 m2 : List (NodeKey × String)) (k : NodeKey)
    (h : ∀ e ∈ m1, e.1 ≠ k) : mapLookup (m1 ++ m2) k = mapLookup m2 k := by
  induction m1 with
  | nil => rfl
  | cons e t ih =>
      cases e with
      | mk a b =>
          rw [List.cons_append,
            mapLookup_cons_ne a b (t ++ m2) k (h (a, b) (List.mem_cons_self _ _))]
          exact ih (fun e he => h e (List.mem_cons_of_mem _ he))

theorem mapLookup_none (m : List (NodeKey × String)) (k : NodeKey)
    (h : ∀ e ∈ m, e.1 ≠ k) : mapLookup m k = none := by
  induction m with
  | nil => rfl
  | cons e t ih =>
      cases e with
      | mk a b =>
          rw [mapLookup_cons_ne a b t k (h (a, b) (List.mem_cons_self _ _))]
          exact ih (fun e he => h e (List.mem_cons_of_mem _ he))

theorem createDescription_disabled (ctx : AIDescriptionContext) (cfg : NormalizedConfig)
    (o : HttpOutcome) (h : cfg.ai.enabled = false) :
    (createDescription ctx cfg o).1 = ctx.functionName ++ " function" := by
  unfold createDescription
  rw [if_pos (Or.inl (by simp [h]))]

theorem buildCommentMapAux_disabled (cfg : NormalizedConfig) (ck : Option Checker)
    (net : Nat → HttpOutcome) (h : cfg.ai.enabled = false) :
    ∀ (i : Nat) (ts : List ParsedTarget),
    buildCommentMapAux cfg ck net i ts =
      ts.map (fun t => (t.key, disabledComment cfg ck t)) := by
  intro i ts
  induction ts generalizing i with
  | nil => rfl
  | cons t rest ih =>
      simp only [buildCommentMapAux, List.map]
      rw [createDescription_disabled _ _ _ h, ih]
      rfl

theorem map_entries_eq (cfg : NormalizedConfig) (ck : Option Checker) :
    ∀ keyed : List (NodeKey × Item),
    (collectTargetsKeyed ck keyed).map (fun t => (t.key, disabledComment cfg ck t)) =
      targetEntries cfg ck keyed := by
  intro keyed
  induction keyed with
  | nil => rfl
  | cons p rest ih =>
      cases p with
      | mk k it =>
          cases it with
          | raw l => simpa [collectTargetsKeyed, targetEntries] using ih
          | fn doc name f v =>
              cases doc with
              | none =>
                  simp [collectTargetsKeyed, targetEntries, ih]
              | some d => simpa [collectTargetsKeyed, targetEntries] using ih

theorem annotateKeyed_direct (cfg : NormalizedConfig) (ck : Option Checker) :
    ∀ (its : List Item) (base : Nat) (pre : List (NodeKey × String)),
    (∀ e ∈ pre, e.1.startPos < base) →
    annotateKeyed (pre ++ targetEntries cfg ck (itemsWithKeys base its))
        (itemsWithKeys base its) =
      its.map (directAnnotate cfg ck) := by
  intro its
  induction its with
  | nil =>
      intro base pre hpre
      simp [itemsWithKeys, targetEntries, annotateKeyed]
  | cons it rest ih =>
      intro base pre hpre
      have hdoc := itemDocLen_le it
      have hpre2 : ∀ e ∈ pre, e.1 ≠ makeNodeKey base it := by
        intro e he
        apply nodeKey_ne_of_start_lt
        have h1 := hpre e he
        show e.1.startPos < base + itemDocLen it
        omega
      have hrest : ∀ e ∈ targetEntries cfg ck
          (itemsWithKeys (base + (itemText it).length + 1) rest),
          e.1 ≠ makeNodeKey base it := by
        intro e he heq
        have h1 := targetEntries_start_ge cfg ck rest (base + (itemText it).length + 1) e he
        have h2 : e.1.startPos = base + itemDocLen it := by rw [heq]; rfl
        omega
      cases it with
      | raw l =>
          simp only [itemsWithKeys, targetEntries, annotateKeyed, List.map, List.nil_append]
          rw [mapLookup_append_right pre _ _ hpre2, mapLookup_none _ _ hrest,
            ih (base + (itemText (Item.raw l)).length + 1) pre
              (fun e he => by have := hpre e he; omega)]
          rfl
      | fn doc name f v =>
          cases doc with
          | some d =>
              simp only [itemsWithKeys, targetEntries, annotateKeyed, List.map,
                List.nil_append]
              rw [mapLookup_append_right pre _ _ hpre2, mapLookup_none _ _ hrest,
                ih (base + (itemText (Item.fn (some d) name f v)).length + 1) pre
                  (fun e he => by have := hpre e he; omega)]
              rfl
          | none =>
              simp only [itemsWithKeys, targetEntries, annotateKeyed, List.map,
                List.singleton_append]
              rw [mapLookup_append_right pre _ _ hpre2]
              simp only [mapLookup, if_pos]
              rw [List.append_cons pre _ (targetEntries cfg ck
                (itemsWithKeys (base + (itemText (Item.fn none name f v)).length + 1) rest))]
              rw [ih (base + (itemText (Item.fn none name f v)).length + 1) (pre ++ [_])
                (by
                  intro e he
                  rcases List.mem_append.1 he with he | he
                  · have := hpre e he; omega
                  · rw [List.mem_singleton] at he
                    rw [he]
                    show base + itemDocLen (Item.fn none name f v) <
                      base + (itemText (Item.fn none name f v)).length + 1
                    omega)]
              rfl

theorem isEmpty_false_of_length_ne (l : List α) (h : l.length ≠ 0) : l.isEmpty = false := by
  cases l with
  | nil => simp at h
  | cons a t => rfl

theorem length_ne_of_isEmpty_false (l : List α) (h : l.isEmpty = false) : l.length ≠ 0 := by
  cases l with
  | nil => simp [List.isEmpty] at h
  | cons a t => simp

set_option maxRecDepth 10000 in
/-- C1, counterexample: an edit that only inserts comment text before
    anchor offsets leaves every original byte in place and in order, so
    the input must remain a subsequence (`List.Sublist`) of the output.
    For a unit with CRLF line terminators the transform's output — a full
    re-emission by the printer, created with `NewLineKind.LineFeed` — has
    no carriage returns left, so the subrange was not produced by
    insertions alone: bytes of the script subrange outside the inserted
    comments were altered. -/
theorem C1_counterexample :
    ¬ (crlfUnit.data.Sublist
        (transformCode "unit.ts" crlfUnit DEFAULT_CONFIG none noResponse).data) := by
  intro h
  have hc := h.count_le '\r'
  revert hc
  decide

/-- C1, amended: the script subrange of the output is the external
    printer's re-emission, in canonical layout with LF newlines, of the
    transformed tree; at tree level, the only change is that every
    documentable declaration without a leading documentation comment gains
    its synthesized comment immediately above the declaration (with AI
    disabled, from the deterministic fallback description), and every
    other item is reproduced by the printer untouched.  Byte preservation
    outside the inserted comments is not guaranteed. -/
theorem C1_amended : ∀ (filePath code : String) (cfg : NormalizedConfig)
    (ck : Option Checker) (net : Nat → HttpOutcome),
    strLower (extname filePath) ≠ ".vue" →
    cfg.ai.enabled = false →
    (collectTargets (parseScript code) ck).isEmpty = false →
    transformCode filePath code cfg ck net =
      printItems ((parseScript code).map (directAnnotate cfg ck)) := by
  intro fp code cfg ck net hvue hai hne
  unfold transformCode
  rw [if_neg hvue]
  dsimp only
  have hmap : buildCommentMap (collectTargets (parseScript code) ck) cfg ck net =
      targetEntries cfg ck (itemsWithKeys 0 (parseScript code)) := by
    unfold buildCommentMap
    rw [buildCommentMapAux_disabled cfg ck net hai]
    exact map_entries_eq cfg ck _
  rw [hmap]
  have hlen : (targetEntries cfg ck (itemsWithKeys 0 (parseScript code))).length ≠ 0 := by
    rw [← hmap]
    unfold buildCommentMap
    rw [buildCommentMapAux_length]
    exact length_ne_of_isEmpty_false _ hne
  rw [isEmpty_false_of_length_ne _ hlen]
  simp only [Bool.false_eq_true, if_false]
  have := annotateKeyed_direct cfg ck (parseScript code) 0 [] (by simp)
  rw [List.nil_append] at this
  rw [this]

/-- C1, witness for the amended theorem. -/
theorem C1_witness :
    (collectTargets (parseScript "function k() { return 1; }") none).isEmpty = false ∧
    transformCode "w2.ts" "function k() { return 1; }" DEFAULT_CONFIG none noResponse =
      printItems ((parseScript "function k() { return 1; }").map
        (directAnnotate DEFAULT_CONFIG none)) :=
  ⟨by decide,
   C1_amended "w2.ts" "function k() { return 1; }" DEFAULT_CONFIG none noResponse
     (by decide) rfl (by decide)⟩

/-! ### C2 — idempotence -/

set_option maxRecDepth 10000 in
/-- C2: the transformation is not idempotent.  On `vueAttrUnit` — a `.vue`
    unit whose script open tag carries an attribute equal to the script
    content — `extractVueScript` locates the content offset with
    `full.indexOf(content)`, which finds the attribute copy, so the first
    pass splices the synthesized comment inside the open tag, the true
    script content is still uncommented after the pass, and the second
    pass changes the unit again: the second application is not
    byte-identical to the first result. -/
theorem C2_theorem :
    transformCode "a.vue" (transformCode "a.vue" vueAttrUnit DEFAULT_CONFIG none noResponse)
        DEFAULT_CONFIG none noResponse ≠
      transformCode "a.vue" vueAttrUnit DEFAULT_CONFIG none noResponse := by
  decide

/-! ### C3 — container round-trip -/

set_option maxRecDepth 10000 in
/-- C3, counterexample: on `vueAttrUnitG` the script subrange — the
    content between the opening and closing delimiters — is `[39, 65)`,
    but the transformed output does not reproduce the wrapper prefix
    before it: `extractVueScript` computed the content offset with
    `full.indexOf(content)`, which found the attribute copy at offset 11,
    so the splice overwrote part of the open tag. -/
theorem C3_counterexample :
    sliceChars vueAttrUnitG 39 65 = "function g() { return 2; }" ∧
    takeChars (transformCode "g.vue" vueAttrUnitG DEFAULT_CONFIG none noResponse) 39 ≠
      takeChars vueAttrUnitG 39 := by
  refine ⟨by decide, by decide⟩

/-- C3, amended: for a transformed container unit, every byte outside the
    subrange `[contentStart, contentEnd)` computed by `extractVueScript`
    is reproduced unchanged, and a leading/trailing newline of the
    original subrange missing from the rewritten script is re-added at
    that edge.  The computed subrange is the content between the script
    delimiters except when the content text also occurs earlier inside the
    open tag (the offsets come from `full.indexOf(content)`), in which
    case the splice lands inside the wrapper — the counterexample. -/
theorem C3_amended : ∀ (filePath code : String) (cfg : NormalizedConfig)
    (ck : Option Checker) (net : Nat → HttpOutcome) (v : VueScript),
    strLower (extname filePath) = ".vue" →
    extractVueScript code = some v →
    (collectTargets (parseScript v.content) ck).isEmpty = false →
    ∃ mid,
      transformCode filePath code cfg ck net =
        takeChars code v.contentStart ++ mid ++ dropChars code v.contentEnd ∧
      (strStarts (sliceChars code v.contentStart v.contentEnd) "\n" = true →
        strStarts mid "\n" = true) ∧
      (strEnds (sliceChars code v.contentStart v.contentEnd) "\n" = true →
        strEnds mid "\n" = true) := by
  intro fp code cfg ck net v hvue hex hne
  unfold transformCode
  rw [if_pos hvue, hex]
  dsimp only
  have hlen : (buildCommentMap (collectTargets (parseScript v.content) ck)
      cfg ck net).length ≠ 0 := by
    unfold buildCommentMap
    rw [buildCommentMapAux_length]
    exact length_ne_of_isEmpty_false _ hne
  rw [isEmpty_false_of_length_ne _ hlen]
  simp only [Bool.false_eq_true, if_false]
  refine ⟨_, rfl, ?_, ?_⟩
  · intro hs
    split_ifs with h1 h2 h2
    · exact strStarts_append_of _ "\n" "\n" (strStarts_append "\n" _)
    · exact strStarts_append "\n" _
    · rcases not_and_or.1 h1 with hc | hc
      · exact absurd hs hc
      · rw [not_not] at hc
        exact strStarts_append_of _ "\n" "\n" hc
    · rcases not_and_or.1 h1 with hc | hc
      · exact absurd hs hc
      · rw [not_not] at hc
        exact hc
  · intro he
    split_ifs with h1 h2 h2
    · exact strEnds_append _ "\n"
    · rcases not_and_or.1 h2 with hc | hc
      · exact absurd he hc
      · rw [not_not] at hc
        exact hc
    · exact strEnds_append _ "\n"
    · rcases not_and_or.1 h2 with hc | hc
      · exact absurd he hc
      · rw [not_not] at hc
        exact hc

set_option maxRecDepth 10000 in
/-- C3, witness for the amended theorem on a well-behaved container unit
    whose script content begins and ends with a newline. -/
theorem C3_witness :
    extractVueScript vueCleanUnit = some vueCleanScript ∧
    (collectTargets (parseScript vueCleanScript.content) none).isEmpty = false ∧
    (∃ mid,
      transformCode "c.vue" vueCleanUnit DEFAULT_CONFIG none noResponse =
        takeChars vueCleanUnit vueCleanScript.contentStart ++ mid ++
          dropChars vueCleanUnit vueCleanScript.contentEnd ∧
      (strStarts (sliceChars vueCleanUnit vueCleanScript.contentStart
          vueCleanScript.contentEnd) "\n" = true →
        strStarts mid "\n" = true) ∧
      (strEnds (sliceChars vueCleanUnit vueCleanScript.contentStart
          vueCleanScript.contentEnd) "\n" = true →
        strEnds mid "\n" = true)) :=
  ⟨by decide, by decide,
   C3_amended "c.vue" vueCleanUnit DEFAULT_CONFIG none noResponse vueCleanScript
     (by decide) (by decide) (by decide)⟩

/-- C5, witness for the amended theorem: an async function whose block
    body has one collected return is Promise-wrapped. -/
theorem C5_witness :
    strStarts (inferReturnTypeText
      { isAsync := true, params := [], retAnn := none,
        body := some (.block [.ret (some (.numLit "1"))]) } none) "Promise<" = true :=
  (C5_amended
    { isAsync := true, params := [], retAnn := none,
      body := some (.block [.ret (some (.numLit "1"))]) } none rfl rfl rfl).2.2.1
    [Stmt.ret (some (Expr.numLit "1"))] rfl (by decide)
